import Mathlib

/-!
# Verification of the Tiki Solitaire rules engine

Shallow embedding of `src/gameLogic.js`: the pure state-transition logic of
the game (deck construction, tableau dealing, card moves, pair formation,
domino assembly, chain management, undo history), together with proofs of
the specification claims about it.

Modelling conventions:
* JS arrays become `List`; an out-of-range index read (`undefined`) becomes
  `none` via `l[i]?`.
* JS objects become structures; spread-update becomes structure update.
* The nondeterministic domino id (`Date.now()`/`Math.random()`) becomes an
  explicit `newId` argument to `createDominoFromPairs`.
* `JSON.parse(JSON.stringify(x))` deep copies are value copies in the pure
  model.
* A JS `x.displayValue1 || x.value1` fallback becomes
  `x.displayValue1.getD x.value1`; the fields, when set, always hold pair
  labels of the form "r1-r2", which are never the empty string, so the JS
  falsy-on-"" case cannot differ.
-/

namespace Tiki

/-- A playing card, mirroring the card objects built by `createDeck`. -/
structure Card where
  rank : String
  suit : String
  value : Nat
  isRed : Bool
  id : String
deriving DecidableEq, Repr

/-- A pair is stored in the source as a two-element array `[redCard, blackCard]`. -/
abbrev CardPair := Card × Card

/-- A domino object as built by `createDominoFromPairs`; the
`displayValue1`/`displayValue2`/`originalIndex` fields are absent (`none`)
until the domino is placed into a chain by `addDominoToChain`. -/
structure Domino where
  id : String
  pair1 : CardPair
  pair2 : CardPair
  value1 : String
  value2 : String
  cards : List Card
  inChain : Bool
  displayValue1 : Option String
  displayValue2 : Option String
  originalIndex : Option Nat
deriving DecidableEq, Repr

abbrev DominoChain := List Domino

/-- A history snapshot, as produced by `snapshotState` (which copies every
state field except `history`). -/
structure Snapshot where
  tableau : List (List Card)
  pairs : List CardPair
  dominos : List Domino
  chains : List DominoChain
  moveCount : Nat
deriving DecidableEq

/-- The root game state. -/
structure GameState where
  tableau : List (List Card)
  pairs : List CardPair
  dominos : List Domino
  chains : List DominoChain
  moveCount : Nat
  history : List Snapshot
deriving DecidableEq

def SUITS : List String := ["♥", "♦", "♣", "♠"]

def RANKS : List String :=
  ["A", "2", "3", "4", "5", "6", "7", "8", "9", "10", "J", "Q", "K"]

/-- The `RANK_VALUES` object, as an association list. -/
def RANK_VALUES : List (String × Nat) :=
  [("A", 1), ("2", 2), ("3", 3), ("4", 4), ("5", 5), ("6", 6), ("7", 7),
   ("8", 8), ("9", 9), ("10", 10), ("J", 11), ("Q", 12), ("K", 13)]

/-- `RANK_VALUES[rank]`: `none` models the JS `undefined` for an unknown key. -/
def rankValue? (r : String) : Option Nat := RANK_VALUES.lookup r

def MAX_PAIRS : Nat := 6
def MAX_HISTORY : Nat := 50

/-- `createDeck()`: all 52 cards, suit-major then rank order.
For every rank in `RANKS` the `RANK_VALUES` lookup succeeds, so the
`getD 0` default is never used. -/
def createDeck : List Card :=
  SUITS.flatMap fun suit =>
    RANKS.map fun rank =>
      { rank := rank
        suit := suit
        value := (rankValue? rank).getD 0
        isRed := suit == "♥" || suit == "♦"
        id := rank ++ suit }

/-- `tableau[k].push(card)`: append `card` to the `k`-th column.  The JS code
only ever calls this with `k` in range. -/
def pushAt : List (List Card) → Nat → Card → List (List Card)
  | [], _, _ => []
  | col :: rest, 0, c => (col ++ [c]) :: rest
  | col :: rest, k + 1, c => col :: pushAt rest k c

/-- The `deck.forEach((card, index) => tableau[index % columnCount].push(card))`
loop of `dealTableau`, carrying the running index. -/
def dealTableauAux (columnCount : Nat) : Nat → List Card → List (List Card) → List (List Card)
  | _, [], t => t
  | i, c :: rest, t => dealTableauAux columnCount (i + 1) rest (pushAt t (i % columnCount) c)

/-- `dealTableau(deck, columnCount)`: distribute the deck round-robin. -/
def dealTableau (deck : List Card) (columnCount : Nat) : List (List Card) :=
  dealTableauAux columnCount 0 deck (List.replicate columnCount [])

/-- `createInitialState(deck)` (the caller supplies the shuffled deck). -/
def createInitialState (deck : List Card) : GameState :=
  { tableau := dealTableau deck 8
    pairs := []
    dominos := []
    chains := []
    moveCount := 0
    history := [] }

/-- `canStack(topCard, bottomCard)`; `none` models a missing argument. -/
def canStack : Option Card → Option Card → Bool
  | some a, some b => a.rank == b.rank || a.value + b.value == 14
  | _, _ => false

/-- `canPair(card1, card2)`. -/
def canPair : Option Card → Option Card → Bool
  | some a, some b => a.isRed != b.isRed && a.value + b.value == 14
  | _, _ => false

/-- `getPairLowerValue(pair)`. -/
def getPairLowerValue (p : CardPair) : Nat := min p.1.value p.2.value

/-- `getPairLabel(pair)`: JS sorts the two-element array with comparator
`a.value - b.value` (stable, so it swaps exactly when the first value is
strictly larger) and joins the ranks with "-". -/
def getPairLabel (p : CardPair) : String :=
  if p.1.value ≤ p.2.value then p.1.rank ++ "-" ++ p.2.rank
  else p.2.rank ++ "-" ++ p.1.rank

/-- `canFormDomino(pair1, pair2)`: the set of the four suits has size 4. -/
def canFormDomino : Option CardPair → Option CardPair → Bool
  | some p1, some p2 =>
    [p1.1.suit, p1.2.suit, p2.1.suit, p2.2.suit].dedup.length == 4
  | _, _ => false

/-- `parseInt(s, 10)` restricted to what the source can feed it: parse a
leading run of decimal digits, `none` for NaN (no leading digit). -/
def jsParseInt (s : String) : Option Nat :=
  let ds := s.toList.takeWhile Char.isDigit
  if ds.isEmpty then none
  else some (ds.foldl (fun n c => n * 10 + (c.toNat - 48)) 0)

/-- `label.split('-')[0]`: the prefix of the label before its first `'-'`
(the whole label when no dash occurs), which is exactly the first element
JS `split` produces. -/
def jsSplitFirst (label : String) : String :=
  (label.toList.takeWhile (fun c => c ≠ '-')).asString

/-- The `getNumericValue` closure of `normalizeDominoValues`:
`RANK_VALUES[label.split('-')[0]] || parseInt(...)`.  `none` models NaN.
(No entry of `RANK_VALUES` is `0`, so JS falsiness coincides with absence.) -/
def getNumericValue (label : String) : Option Nat :=
  match rankValue? (jsSplitFirst label) with
  | some v => some v
  | none => jsParseInt (jsSplitFirst label)

/-- `normalizeDominoValues(value1, value2)`: keep the order when
`num1 <= num2`, otherwise swap.  A NaN on either side makes the JS
comparison false, hence the swap branch. -/
def normalizeDominoValues (value1 value2 : String) : String × String :=
  match getNumericValue value1, getNumericValue value2 with
  | some n1, some n2 => if n1 ≤ n2 then (value1, value2) else (value2, value1)
  | _, _ => (value2, value1)

/-- `snapshotState(state)`. -/
def snapshotState (s : GameState) : Snapshot :=
  { tableau := s.tableau
    pairs := s.pairs
    dominos := s.dominos
    chains := s.chains
    moveCount := s.moveCount }

/-- `withHistory(state)`: push a snapshot, then `shift()` the oldest entry
when the length exceeds `MAX_HISTORY`. -/
def withHistory (s : GameState) : List Snapshot :=
  let history := s.history ++ [snapshotState s]
  if history.length > MAX_HISTORY then history.tail else history

/-- `undoState(state)`. -/
def undoState (s : GameState) : GameState :=
  match s.history.getLast? with
  | none => s
  | some previous =>
    { tableau := previous.tableau
      pairs := previous.pairs
      dominos := previous.dominos
      chains := previous.chains
      moveCount := previous.moveCount
      history := s.history.dropLast }

/-- The `(column, index) => ...` map used by `moveCard` and
`createPairFromTableau`, carrying the running index. -/
def jsMapIdxAux (f : Nat → α → β) : Nat → List α → List β
  | _, [] => []
  | n, a :: as => f n a :: jsMapIdxAux f (n + 1) as

def jsMapIdx (f : Nat → α → β) (l : List α) : List β := jsMapIdxAux f 0 l

/-- `moveCard(state, fromCol, toCol)`. -/
def moveCard (s : GameState) (fromCol toCol : Nat) : GameState :=
  if fromCol = toCol then s
  else
    match s.tableau[fromCol]?, s.tableau[toCol]? with
    | some fromColumn, some toColumn =>
      if fromColumn.length = 0 then s
      else
        match fromColumn.getLast? with
        | none => s -- unreachable: fromColumn is nonempty
        | some card =>
          if toColumn.length ≠ 0 ∧ canStack (some card) toColumn.getLast? = false then s
          else
            let nextTableau := jsMapIdx
              (fun index column =>
                if index = fromCol then column.dropLast
                else if index = toCol then column ++ [card]
                else column)
              s.tableau
            { s with
              tableau := nextTableau
              moveCount := s.moveCount + 1
              history := withHistory s }
    | _, _ => s

/-- `createPairFromTableau(state, fromCol, toCol)`. -/
def createPairFromTableau (s : GameState) (fromCol toCol : Nat) : GameState :=
  if s.pairs.length ≥ MAX_PAIRS then s
  else if fromCol = toCol then s
  else
    match s.tableau[fromCol]?, s.tableau[toCol]? with
    | some fromColumn, some toColumn =>
      if fromColumn.length = 0 ∨ toColumn.length = 0 then s
      else
        match fromColumn.getLast?, toColumn.getLast? with
        | some card1, some card2 =>
          if canPair (some card1) (some card2) = false then s
          else
            let nextTableau := jsMapIdx
              (fun index column =>
                if index = fromCol then column.dropLast
                else if index = toCol then column.dropLast
                else column)
              s.tableau
            let pair : CardPair := if card1.isRed then (card1, card2) else (card2, card1)
            { s with
              tableau := nextTableau
              pairs := s.pairs ++ [pair]
              moveCount := s.moveCount + 1
              history := withHistory s }
        | _, _ => s -- unreachable: both columns are nonempty
    | _, _ => s

/-- `createDominoFromPairs(state, pairIndex1, pairIndex2)`; `newId` stands for
the generated `domino_${Date.now()}_...` id. -/
def createDominoFromPairs (s : GameState) (pairIndex1 pairIndex2 : Nat) (newId : String) :
    GameState :=
  if pairIndex1 = pairIndex2 then s
  else
    match s.pairs[pairIndex1]?, s.pairs[pairIndex2]? with
    | some pair1, some pair2 =>
      if canFormDomino (some pair1) (some pair2) = false then s
      else
        let label1 := getPairLabel pair1
        let label2 := getPairLabel pair2
        let value1 := (normalizeDominoValues label1 label2).1
        let value2 := (normalizeDominoValues label1 label2).2
        let orderedPair1 := if label1 = value1 then pair1 else pair2
        let orderedPair2 := if label1 = value1 then pair2 else pair1
        let domino : Domino :=
          { id := newId
            pair1 := orderedPair1
            pair2 := orderedPair2
            value1 := value1
            value2 := value2
            cards := [orderedPair1.1, orderedPair1.2, orderedPair2.1, orderedPair2.2]
            inChain := false
            displayValue1 := none
            displayValue2 := none
            originalIndex := none }
        -- `[pairIndex1, pairIndex2].sort((a, b) => b - a)` then two splices:
        -- remove the higher index first, then the lower.
        let nextPairs := (s.pairs.eraseIdx (max pairIndex1 pairIndex2)).eraseIdx
          (min pairIndex1 pairIndex2)
        { s with
          pairs := nextPairs
          dominos := s.dominos ++ [domino]
          moveCount := s.moveCount + 1
          history := withHistory s }
    | _, _ => s

/-- `getChainEndValues(chain)`: `none` for an empty chain (JS `null`). -/
def getChainEndValues (chain : DominoChain) : Option (String × String) :=
  match chain.head?, chain.getLast? with
  | some first, some last =>
    some (first.displayValue1.getD first.value1, last.displayValue2.getD last.value2)
  | _, _ => none

/-- `canConnectToChain(domino, chain)`: true for an empty chain, otherwise the
domino must match the chain's end value. -/
def canConnectToChain (d : Domino) (chain : DominoChain) : Bool :=
  match getChainEndValues chain with
  | none => true
  | some ends => d.value1 == ends.2 || d.value2 == ends.2

/-- `canConnectToChainStart(domino, chain)`. -/
def canConnectToChainStart (d : Domino) (chain : DominoChain) : Bool :=
  match getChainEndValues chain with
  | none => true
  | some ends => d.value1 == ends.1 || d.value2 == ends.1

/-- The domino as wrapped for a brand-new chain: `displayValue1 = value1`,
`displayValue2 = value2`, `originalIndex` recorded. -/
def orientAsNew (d : Domino) (dominoIndex : Nat) : Domino :=
  { d with
    originalIndex := some dominoIndex
    displayValue1 := some d.value1
    displayValue2 := some d.value2 }

/-- The `state.dominos.map((item, index) => index === dominoIndex ? {...item,
inChain: true} : item)` update shared by every success path of
`addDominoToChain`. -/
def markInChain (dominos : List Domino) (dominoIndex : Nat) : List Domino :=
  jsMapIdx (fun index item => if index = dominoIndex then { item with inChain := true } else item)
    dominos

/-- `addDominoToChain(state, dominoIndex, chainIndex)`; `chainIndex? = none`
models the `chainIndex = null` default.

The three JS sites that start a new chain (`chainIndex` null with no chains,
scan found nothing, target chain does not accept) all produce
`chains ++ [[oriented]]` (for the first site `chains` is `[]`), modelled once
as `newChainState`.  When the target chain is empty, the JS code would crash
reading `ends.end` of `null`; that path (unreachable: states never hold empty
chains) is modelled as returning the state unchanged. -/
def addDominoToChain (s : GameState) (dominoIndex : Nat) (chainIndex? : Option Nat) :
    GameState :=
  match s.dominos[dominoIndex]? with
  | none => s
  | some domino =>
    if domino.inChain then s
    else
      let newChainState : GameState :=
        { s with
          dominos := markInChain s.dominos dominoIndex
          chains := s.chains ++ [[orientAsNew domino dominoIndex]]
          moveCount := s.moveCount + 1
          history := withHistory s }
      -- `chainIndex === null`: scan for the first chain passing `canConnectToChain`
      let resolved : Option Nat :=
        match chainIndex? with
        | some i => some i
        | none => s.chains.findIdx? (fun chain => canConnectToChain domino chain)
      match resolved with
      | none => newChainState
      | some chainIndex =>
        match s.chains[chainIndex]? with
        | none => s -- `if (!chain) return state`
        | some chain =>
          match getChainEndValues chain with
          | none => s -- JS would throw on `ends.end`; unreachable (no empty chains)
          | some ends =>
            let canConnectEnd := domino.value1 == ends.2 || domino.value2 == ends.2
            let canConnectStart := domino.value1 == ends.1 || domino.value2 == ends.1
            if canConnectEnd = false ∧ canConnectStart = false then newChainState
            else
              let oriented : Domino :=
                if canConnectEnd then
                  if domino.value1 == ends.2 then
                    { domino with
                      originalIndex := some dominoIndex
                      displayValue1 := some domino.value1
                      displayValue2 := some domino.value2 }
                  else
                    { domino with
                      originalIndex := some dominoIndex
                      displayValue1 := some domino.value2
                      displayValue2 := some domino.value1 }
                else
                  if domino.value2 == ends.1 then
                    { domino with
                      originalIndex := some dominoIndex
                      displayValue1 := some domino.value1
                      displayValue2 := some domino.value2 }
                  else
                    { domino with
                      originalIndex := some dominoIndex
                      displayValue1 := some domino.value2
                      displayValue2 := some domino.value1 }
              let nextChains :=
                if canConnectEnd then s.chains.set chainIndex (chain ++ [oriented])
                else s.chains.set chainIndex ([oriented] ++ chain)
              { s with
                dominos := markInChain s.dominos dominoIndex
                chains := nextChains
                moveCount := s.moveCount + 1
                history := withHistory s }

/-- `removeLastFromChain(state, chainIndex)` (the JS default argument is 0;
callers always pass the index explicitly in the model). -/
def removeLastFromChain (s : GameState) (chainIndex : Nat) : GameState :=
  match s.chains[chainIndex]? with
  | none => s -- also covers `!state.chains.length`
  | some chain =>
    match chain.getLast? with
    | none => s -- `!state.chains[chainIndex]?.length`
    | some removed =>
      let shorter := chain.dropLast
      let nextChains :=
        if shorter.length = 0 then s.chains.eraseIdx chainIndex
        else s.chains.set chainIndex shorter
      let nextDominos := s.dominos.map fun d =>
        if d.id = removed.id then { d with inChain := false } else d
      { s with
        dominos := nextDominos
        chains := nextChains
        history := withHistory s }

/-- `clearChain(state, chainIndex)`; `none` models the `chainIndex = null`
default (clear all chains).  `state.chains.filter((_, i) => i !== chainIndex)`
is index removal, i.e. `eraseIdx`. -/
def clearChain (s : GameState) (chainIndex? : Option Nat) : GameState :=
  if s.chains.length = 0 then s
  else
    let chainsToRemove : List Domino :=
      match chainIndex? with
      | none => s.chains.flatten
      | some i => (s.chains[i]?).getD []
    let nextChains : List DominoChain :=
      match chainIndex? with
      | none => []
      | some i => s.chains.eraseIdx i
    let ids := chainsToRemove.map (fun d => d.id)
    let nextDominos := s.dominos.map fun d =>
      if ids.contains d.id then { d with inChain := false } else d
    { s with
      dominos := nextDominos
      chains := nextChains
      history := withHistory s }

/-- `canJoinChains(chain1, chain2)`. -/
def canJoinChains (chain1 chain2 : DominoChain) : Bool :=
  match getChainEndValues chain1, getChainEndValues chain2 with
  | some ends1, some ends2 =>
    ends1.2 == ends2.1 || ends1.2 == ends2.2 || ends1.1 == ends2.1 || ends1.1 == ends2.2
  | _, _ => false -- `!chain1?.length || !chain2?.length`

/-- `reverseChain(chain)`: reverse the order and swap each element's display
values. -/
def reverseChain (chain : DominoChain) : DominoChain :=
  chain.reverse.map fun d =>
    { d with displayValue1 := d.displayValue2, displayValue2 := d.displayValue1 }

/-- The four-way orientation choice of `joinChains`; `none` models the final
`else return state` (unreachable once `canJoinChains` holds). -/
def joinedChain? (chain1 chain2 : DominoChain) (ends1 ends2 : String × String) :
    Option DominoChain :=
  if ends1.2 = ends2.1 then some (chain1 ++ chain2)
  else if ends1.2 = ends2.2 then some (chain1 ++ reverseChain chain2)
  else if ends1.1 = ends2.2 then some (chain2 ++ chain1)
  else if ends1.1 = ends2.1 then some (reverseChain chain2 ++ chain1)
  else none

/-- `joinChains(state, chainIndex1, chainIndex2)`. -/
def joinChains (s : GameState) (chainIndex1 chainIndex2 : Nat) : GameState :=
  if chainIndex1 = chainIndex2 then s
  else
    match s.chains[chainIndex1]?, s.chains[chainIndex2]? with
    | some chain1, some chain2 =>
      if canJoinChains chain1 chain2 = false then s
      else
        match getChainEndValues chain1, getChainEndValues chain2 with
        | some ends1, some ends2 =>
          match joinedChain? chain1 chain2 ends1 ends2 with
          | none => s
          | some joined =>
            -- remove the higher index first, then the lower, then push
            let nextChains :=
              ((s.chains.eraseIdx (max chainIndex1 chainIndex2)).eraseIdx
                (min chainIndex1 chainIndex2)) ++ [joined]
            { s with
              chains := nextChains
              moveCount := s.moveCount + 1
              history := withHistory s }
        | _, _ => s -- unreachable: `canJoinChains` forces both chains nonempty
    | _, _ => s

/-- The common remove-then-insert reordering used by `reorderChains`,
`reorderPairs` and `reorderDominos`. -/
def jsReorder (l : List α) (fromIndex toIndex : Nat) : List α :=
  match l[fromIndex]? with
  | none => l
  | some moved => (l.eraseIdx fromIndex).insertIdx toIndex moved

/-- `reorderChains(state, fromIndex, toIndex)`.  (Negative JS indices always
fall in the rejected-by-bounds branch, so `Nat` indices lose nothing.) -/
def reorderChains (s : GameState) (fromIndex toIndex : Nat) : GameState :=
  if fromIndex = toIndex then s
  else if fromIndex ≥ s.chains.length then s
  else if toIndex ≥ s.chains.length then s
  else
    { s with
      chains := jsReorder s.chains fromIndex toIndex
      history := withHistory s }

/-- `reorderPairs(state, fromIndex, toIndex)`. -/
def reorderPairs (s : GameState) (fromIndex toIndex : Nat) : GameState :=
  if fromIndex = toIndex then s
  else if fromIndex ≥ s.pairs.length then s
  else if toIndex ≥ s.pairs.length then s
  else
    { s with
      pairs := jsReorder s.pairs fromIndex toIndex
      history := withHistory s }

/-- `reorderDominos(state, fromIndex, toIndex)`. -/
def reorderDominos (s : GameState) (fromIndex toIndex : Nat) : GameState :=
  if fromIndex = toIndex then s
  else if fromIndex ≥ s.dominos.length then s
  else if toIndex ≥ s.dominos.length then s
  else
    { s with
      dominos := jsReorder s.dominos fromIndex toIndex
      history := withHistory s }

/-- `checkCircular(chain)`. -/
def checkCircular (chain : DominoChain) : Bool :=
  if chain.length < 2 then false
  else
    match chain.head?, chain.getLast? with
    | some first, some last =>
      first.displayValue1.getD first.value1 == last.displayValue2.getD last.value2
    | _, _ => false -- unreachable: length ≥ 2

/-- `checkWin(chains)`. -/
def checkWin (chains : List DominoChain) : Bool :=
  if chains.length ≠ 1 then false
  else
    match chains.head? with
    | some chain => chain.length * 4 == 52 && checkCircular chain
    | none => false -- unreachable: length = 1

/-- `getTotalChainLength(chains)`. -/
def getTotalChainLength (chains : List DominoChain) : Nat :=
  chains.foldl (fun sum chain => sum + chain.length) 0

/-- `countTableauCards(tableau)`. -/
def countTableauCards (tableau : List (List Card)) : Nat :=
  tableau.foldl (fun sum col => sum + col.length) 0

/-- States reachable from `createInitialState deck` by the engine's
transition functions (arbitrary arguments, including the generated domino
id). -/
inductive Reachable (deck : List Card) : GameState → Prop
  | init : Reachable deck (createInitialState deck)
  | move {s} (fromCol toCol : Nat) :
      Reachable deck s → Reachable deck (moveCard s fromCol toCol)
  | pair {s} (fromCol toCol : Nat) :
      Reachable deck s → Reachable deck (createPairFromTableau s fromCol toCol)
  | dom {s} (i j : Nat) (newId : String) :
      Reachable deck s → Reachable deck (createDominoFromPairs s i j newId)
  | add {s} (dominoIndex : Nat) (chainIndex? : Option Nat) :
      Reachable deck s → Reachable deck (addDominoToChain s dominoIndex chainIndex?)
  | join {s} (i j : Nat) :
      Reachable deck s → Reachable deck (joinChains s i j)
  | removeLast {s} (chainIndex : Nat) :
      Reachable deck s → Reachable deck (removeLastFromChain s chainIndex)
  | clear {s} (chainIndex? : Option Nat) :
      Reachable deck s → Reachable deck (clearChain s chainIndex?)
  | rpairs {s} (fromIndex toIndex : Nat) :
      Reachable deck s → Reachable deck (reorderPairs s fromIndex toIndex)
  | rdominos {s} (fromIndex toIndex : Nat) :
      Reachable deck s → Reachable deck (reorderDominos s fromIndex toIndex)
  | rchains {s} (fromIndex toIndex : Nat) :
      Reachable deck s → Reachable deck (reorderChains s fromIndex toIndex)
  | undo {s} :
      Reachable deck s → Reachable deck (undoState s)

/-! ## Derived notions used to state the claims -/

/-- The two cards of a pair, in stored order. -/
def pairCards (p : CardPair) : List Card := [p.1, p.2]

def pairsCards (ps : List CardPair) : List Card := ps.flatMap pairCards

def dominosCards (ds : List Domino) : List Card := ds.flatMap Domino.cards

/-- Every card a state accounts for: tableau columns, the pair pool, and the
domino list (dominos in chains keep their entry in `dominos`, flagged
`inChain`; chain elements are oriented copies of those entries, so they are
not counted again). -/
def stateCards (s : GameState) : List Card :=
  s.tableau.flatten ++ pairsCards s.pairs ++ dominosCards s.dominos

/-- The same accounting for a history snapshot. -/
def snapCards (p : Snapshot) : List Card :=
  p.tableau.flatten ++ pairsCards p.pairs ++ dominosCards p.dominos

/-- The shared-edge relation between adjacent chain members. -/
def dominoEdge (a b : Domino) : Prop := a.displayValue2 = b.displayValue1

/-- Well-formedness of a chain as maintained by the engine: nonempty, every
member carries display values, and adjacent members share an edge. -/
def chainWF (c : DominoChain) : Prop :=
  c ≠ [] ∧ (∀ d ∈ c, d.displayValue1.isSome ∧ d.displayValue2.isSome) ∧
    List.Chain' dominoEdge c

/-- The pair label canonically produced by a sum-to-14 pair whose lower card
has value `v` (values 1–7). -/
def canonLabel : Nat → String
  | 1 => "A-K"
  | 2 => "2-Q"
  | 3 => "3-J"
  | 4 => "4-10"
  | 5 => "5-9"
  | 6 => "6-8"
  | 7 => "7-7"
  | _ => ""

/-- Eight deck cards used by the concrete witness plays: two red/black
sum-14 pairs covering all four suits, twice. -/
def specialCards : List Card :=
  [⟨"A", "♥", 1, true, "A♥"⟩, ⟨"K", "♣", 13, false, "K♣"⟩,
   ⟨"5", "♦", 5, true, "5♦"⟩, ⟨"9", "♠", 9, false, "9♠"⟩,
   ⟨"A", "♦", 1, true, "A♦"⟩, ⟨"K", "♠", 13, false, "K♠"⟩,
   ⟨"5", "♥", 5, true, "5♥"⟩, ⟨"9", "♣", 9, false, "9♣"⟩]

/-- A permutation of the canonical deck that deals the eight special cards
onto the tops of the eight tableau columns. -/
def witnessDeck : List Card :=
  createDeck.filter (fun c => !((specialCards.map Card.id).contains c.id)) ++ specialCards

/-- Four pair formations from the witness deal: the pool then holds
(A♥,K♣), (5♦,9♠), (A♦,K♠), (5♥,9♣). -/
def ws4 : GameState :=
  createPairFromTableau (createPairFromTableau
    (createPairFromTableau (createPairFromTableau
      (createInitialState witnessDeck) 4 5) 6 7) 0 1) 2 3

/-- Continue the witness play: build two dominos (both labelled A-K | 5-9)
and chain them, producing one circular two-domino chain. -/
def ws8 : GameState :=
  addDominoToChain (addDominoToChain
    (createDominoFromPairs (createDominoFromPairs ws4 0 1 "d1") 0 1 "d2") 0 none) 1 none

/-- A chained domino with end labels A-K and 5-9. -/
def cexDominoA : Domino :=
  { id := "dA"
    pair1 := (⟨"A", "♥", 1, true, "A♥"⟩, ⟨"K", "♣", 13, false, "K♣"⟩)
    pair2 := (⟨"5", "♦", 5, true, "5♦"⟩, ⟨"9", "♠", 9, false, "9♠"⟩)
    value1 := "A-K"
    value2 := "5-9"
    cards := [⟨"A", "♥", 1, true, "A♥"⟩, ⟨"K", "♣", 13, false, "K♣"⟩,
              ⟨"5", "♦", 5, true, "5♦"⟩, ⟨"9", "♠", 9, false, "9♠"⟩]
    inChain := true
    displayValue1 := some "A-K"
    displayValue2 := some "5-9"
    originalIndex := some 0 }

/-- An available domino with both end labels A-K: it can connect to
`cexDominoA`'s start (A-K) but not to its end (5-9). -/
def cexDominoB : Domino :=
  { id := "dB"
    pair1 := (⟨"A", "♦", 1, true, "A♦"⟩, ⟨"K", "♠", 13, false, "K♠"⟩)
    pair2 := (⟨"A", "♥", 1, true, "A♥"⟩, ⟨"K", "♣", 13, false, "K♣"⟩)
    value1 := "A-K"
    value2 := "A-K"
    cards := [⟨"A", "♦", 1, true, "A♦"⟩, ⟨"K", "♠", 13, false, "K♠"⟩,
              ⟨"A", "♥", 1, true, "A♥"⟩, ⟨"K", "♣", 13, false, "K♣"⟩]
    inChain := false
    displayValue1 := none
    displayValue2 := none
    originalIndex := none }

/-- The state exhibiting the C5 counterexample: one chain `[cexDominoA]`
and the available domino `cexDominoB` at index 1. -/
def cexState : GameState :=
  { tableau := []
    pairs := []
    dominos := [cexDominoA, cexDominoB]
    chains := [[cexDominoA]]
    moveCount := 0
    history := [] }

/-- A chained domino presenting end labels 5-9 then A-K, joinable after
`cexDominoA`. -/
def cexDominoC : Domino :=
  { id := "dC"
    pair1 := (⟨"A", "♦", 1, true, "A♦"⟩, ⟨"K", "♠", 13, false, "K♠"⟩)
    pair2 := (⟨"5", "♥", 5, true, "5♥"⟩, ⟨"9", "♣", 9, false, "9♣"⟩)
    value1 := "A-K"
    value2 := "5-9"
    cards := [⟨"A", "♦", 1, true, "A♦"⟩, ⟨"K", "♠", 13, false, "K♠"⟩,
              ⟨"5", "♥", 5, true, "5♥"⟩, ⟨"9", "♣", 9, false, "9♣"⟩]
    inChain := true
    displayValue1 := some "5-9"
    displayValue2 := some "A-K"
    originalIndex := some 1 }

/-- A state with two joinable one-domino chains (end 5-9 meets start 5-9). -/
def cexJoinState : GameState :=
  { tableau := []
    pairs := []
    dominos := [cexDominoA, cexDominoC]
    chains := [[cexDominoA], [cexDominoC]]
    moveCount := 0
    history := [] }

/-- The master reachability invariant: the state's cards are a permutation
of the original deck, every chain (also in history snapshots) is well
formed, and every pooled pair sums to 14 (also in snapshots). -/
def StateInv (deck : List Card) (s : GameState) : Prop :=
  (stateCards s : Multiset Card) = (deck : Multiset Card)
  ∧ (∀ c ∈ s.chains, chainWF c)
  ∧ (∀ pr ∈ s.pairs, pr.1.value + pr.2.value = 14)
  ∧ (∀ p ∈ s.history,
      (snapCards p : Multiset Card) = (deck : Multiset Card)
      ∧ (∀ c ∈ p.chains, chainWF c)
      ∧ (∀ pr ∈ p.pairs, pr.1.value + pr.2.value = 14))

/-! ## History helper lemmas -/

theorem withHistory_getLast (s : GameState) :
    (withHistory s).getLast? = some (snapshotState s) := by
  unfold withHistory
  dsimp only
  split
  · next hgt =>
    cases hh : s.history with
    | nil =>
      rw [hh] at hgt
      simp only [List.nil_append, List.length_cons, List.length_nil, MAX_HISTORY] at hgt
      omega
    | cons a t =>
      simp [List.getLast?_concat]
  · simp [List.getLast?_concat]

theorem withHistory_ne_nil (s : GameState) : withHistory s ≠ [] := by
  intro h
  have := withHistory_getLast s
  rw [h] at this
  simp at this

theorem withHistory_length_le (s : GameState) (h : s.history.length ≤ MAX_HISTORY) :
    (withHistory s).length ≤ MAX_HISTORY := by
  unfold withHistory
  dsimp only
  simp only [MAX_HISTORY] at h ⊢
  split
  · next hgt =>
    simp only [MAX_HISTORY, List.length_append, List.length_cons, List.length_nil] at hgt
    simp only [List.length_tail, List.length_append, List.length_cons, List.length_nil]
    omega
  · next hle =>
    simp only [MAX_HISTORY, List.length_append, List.length_cons, List.length_nil] at hle ⊢
    omega

theorem withHistory_mem (s : GameState) (p : Snapshot) (hp : p ∈ withHistory s) :
    p ∈ s.history ∨ p = snapshotState s := by
  unfold withHistory at hp
  dsimp only at hp
  split at hp
  · have := List.mem_of_mem_tail hp
    rcases List.mem_append.mp this with h | h
    · exact Or.inl h
    · simp at h; exact Or.inr h
  · rcases List.mem_append.mp hp with h | h
    · exact Or.inl h
    · simp at h; exact Or.inr h

/-- Eviction shape: pushing onto a full history drops the oldest entry. -/
theorem withHistory_full (s : GameState) (h : s.history.length = MAX_HISTORY) :
    withHistory s = s.history.tail ++ [snapshotState s] := by
  unfold withHistory
  dsimp only
  have hgt : (s.history ++ [snapshotState s]).length > MAX_HISTORY := by
    simp only [List.length_append, List.length_cons, List.length_nil, h, MAX_HISTORY]
    omega
  rw [if_pos hgt]
  cases hh : s.history with
  | nil => rw [hh] at h; simp [MAX_HISTORY] at h
  | cons a t => simp [hh]

/-- Undoing any state whose history was just pushed by `withHistory s`
restores the snapshot of `s`. -/
theorem undo_of_withHistory (s t : GameState) (ht : t.history = withHistory s) :
    (undoState t).tableau = s.tableau ∧ (undoState t).pairs = s.pairs ∧
    (undoState t).dominos = s.dominos ∧ (undoState t).chains = s.chains ∧
    (undoState t).moveCount = s.moveCount := by
  unfold undoState
  rw [ht, withHistory_getLast s]
  simp [snapshotState]

/-! ## Per-operation case analyses

Each transition either returns the input state unchanged (rejection) or the
fully described success state.  These lemmas drive every later proof. -/

theorem moveCard_cases (s : GameState) (i j : Nat) :
    moveCard s i j = s ∨
    ∃ fc tc card, i ≠ j ∧ s.tableau[i]? = some fc ∧ s.tableau[j]? = some tc ∧
      fc.getLast? = some card ∧
      moveCard s i j = { s with
        tableau := jsMapIdx (fun index column =>
          if index = i then column.dropLast
          else if index = j then column ++ [card]
          else column) s.tableau
        moveCount := s.moveCount + 1
        history := withHistory s } := by
  unfold moveCard
  split
  · exact Or.inl rfl
  next hij =>
    split
    next fc tc hfc htc =>
      split
      · exact Or.inl rfl
      next hne =>
        split
        · exact Or.inl rfl
        next card hcard =>
          split
          · exact Or.inl rfl
          next hstack =>
            exact Or.inr ⟨fc, tc, card, hij, hfc, htc, hcard, rfl⟩
    next h1 h2 => exact Or.inl rfl

theorem createPairFromTableau_cases (s : GameState) (i j : Nat) :
    createPairFromTableau s i j = s ∨
    ∃ fc tc c1 c2, i ≠ j ∧ s.pairs.length < MAX_PAIRS ∧
      s.tableau[i]? = some fc ∧ s.tableau[j]? = some tc ∧
      fc.getLast? = some c1 ∧ tc.getLast? = some c2 ∧
      canPair (some c1) (some c2) = true ∧
      createPairFromTableau s i j = { s with
        tableau := jsMapIdx (fun index column =>
          if index = i then column.dropLast
          else if index = j then column.dropLast
          else column) s.tableau
        pairs := s.pairs ++ [if c1.isRed then (c1, c2) else (c2, c1)]
        moveCount := s.moveCount + 1
        history := withHistory s } := by
  unfold createPairFromTableau
  split
  · exact Or.inl rfl
  next hcap =>
    split
    · exact Or.inl rfl
    next hij =>
      split
      next fc tc hfc htc =>
        split
        · exact Or.inl rfl
        next hne =>
          split
          next c1 c2 hc1 hc2 =>
            split
            · exact Or.inl rfl
            next hpair =>
              refine Or.inr ⟨fc, tc, c1, c2, hij, by omega, hfc, htc, hc1, hc2, ?_, rfl⟩
              cases h : canPair (some c1) (some c2) with
              | true => rfl
              | false => exact absurd h hpair
          next h1 h2 => exact Or.inl rfl
      next h1 h2 => exact Or.inl rfl

theorem createDominoFromPairs_cases (s : GameState) (i j : Nat) (newId : String) :
    createDominoFromPairs s i j newId = s ∨
    ∃ p1 p2 op1 op2, i ≠ j ∧ s.pairs[i]? = some p1 ∧ s.pairs[j]? = some p2 ∧
      canFormDomino (some p1) (some p2) = true ∧
      ((op1 = p1 ∧ op2 = p2) ∨ (op1 = p2 ∧ op2 = p1)) ∧
      createDominoFromPairs s i j newId = { s with
        pairs := (s.pairs.eraseIdx (max i j)).eraseIdx (min i j)
        dominos := s.dominos ++ [{
          id := newId
          pair1 := op1
          pair2 := op2
          value1 := (normalizeDominoValues (getPairLabel p1) (getPairLabel p2)).1
          value2 := (normalizeDominoValues (getPairLabel p1) (getPairLabel p2)).2
          cards := [op1.1, op1.2, op2.1, op2.2]
          inChain := false
          displayValue1 := none
          displayValue2 := none
          originalIndex := none }]
        moveCount := s.moveCount + 1
        history := withHistory s } := by
  unfold createDominoFromPairs
  split
  · exact Or.inl rfl
  next hij =>
    split
    next p1 p2 hp1 hp2 =>
      split
      · exact Or.inl rfl
      next hdom =>
        by_cases hlab : getPairLabel p1 = (normalizeDominoValues (getPairLabel p1) (getPairLabel p2)).1
        · refine Or.inr ⟨p1, p2, p1, p2, hij, hp1, hp2, ?_, Or.inl ⟨rfl, rfl⟩, ?_⟩
          · cases h : canFormDomino (some p1) (some p2) with
            | true => rfl
            | false => exact absurd h hdom
          · simp only [if_pos hlab]
        · refine Or.inr ⟨p1, p2, p2, p1, hij, hp1, hp2, ?_, Or.inr ⟨rfl, rfl⟩, ?_⟩
          · cases h : canFormDomino (some p1) (some p2) with
            | true => rfl
            | false => exact absurd h hdom
          · simp only [if_neg hlab]
    next h1 h2 => exact Or.inl rfl

theorem addDominoToChain_cases (s : GameState) (idx : Nat) (ci? : Option Nat) :
    addDominoToChain s idx ci? = s ∨
    ∃ domino, s.dominos[idx]? = some domino ∧ domino.inChain = false ∧
      ((addDominoToChain s idx ci? = { s with
          dominos := markInChain s.dominos idx
          chains := s.chains ++ [[orientAsNew domino idx]]
          moveCount := s.moveCount + 1
          history := withHistory s }) ∨
       ∃ ci chain ends oriented, s.chains[ci]? = some chain ∧
         getChainEndValues chain = some ends ∧
         oriented.cards = domino.cards ∧
         ((oriented.displayValue1 = some ends.2 ∧ oriented.displayValue2.isSome ∧
            addDominoToChain s idx ci? = { s with
              dominos := markInChain s.dominos idx
              chains := s.chains.set ci (chain ++ [oriented])
              moveCount := s.moveCount + 1
              history := withHistory s }) ∨
          (oriented.displayValue2 = some ends.1 ∧ oriented.displayValue1.isSome ∧
            addDominoToChain s idx ci? = { s with
              dominos := markInChain s.dominos idx
              chains := s.chains.set ci ([oriented] ++ chain)
              moveCount := s.moveCount + 1
              history := withHistory s }))) := by
  unfold addDominoToChain
  split
  · exact Or.inl rfl
  next domino hdom =>
    split
    next hin => exact Or.inl rfl
    next hin =>
      have hin' : domino.inChain = false := by
        cases h : domino.inChain with
        | true => exact absurd h hin
        | false => rfl
      dsimp only
      split
      · exact Or.inr ⟨domino, hdom, hin', Or.inl rfl⟩
      next ci hres =>
        split
        · exact Or.inl rfl
        next chain hchain =>
          split
          · exact Or.inl rfl
          next ends hends =>
            split
            · exact Or.inr ⟨domino, hdom, hin', Or.inl rfl⟩
            next hconn =>
              split
              -- canConnectEnd = true
              next hend =>
                split
                next hv1 =>
                  exact Or.inr ⟨domino, hdom, hin', Or.inr
                    ⟨ci, chain, ends,
                      { domino with
                        originalIndex := some idx
                        displayValue1 := some domino.value1
                        displayValue2 := some domino.value2 },
                      hchain, hends, rfl,
                      Or.inl ⟨by rw [eq_of_beq hv1], rfl, rfl⟩⟩⟩
                next hv1 =>
                  have hv2 : domino.value2 = ends.2 := by
                    rcases Bool.or_eq_true_iff.mp hend with h | h
                    · exact absurd h hv1
                    · exact eq_of_beq h
                  exact Or.inr ⟨domino, hdom, hin', Or.inr
                    ⟨ci, chain, ends,
                      { domino with
                        originalIndex := some idx
                        displayValue1 := some domino.value2
                        displayValue2 := some domino.value1 },
                      hchain, hends, rfl,
                      Or.inl ⟨by rw [hv2], rfl, rfl⟩⟩⟩
              -- canConnectEnd = false, connect to start
              next hend =>
                have hstart : (domino.value1 == ends.1 || domino.value2 == ends.1) = true := by
                  rcases Decidable.not_and_iff_or_not.mp hconn with h | h
                  · exact absurd (Bool.not_eq_true _ ▸ hend) (by simp_all)
                  · cases hh : (domino.value1 == ends.1 || domino.value2 == ends.1) with
                    | true => rfl
                    | false => exact absurd hh h
                split
                next hv2 =>
                  exact Or.inr ⟨domino, hdom, hin', Or.inr
                    ⟨ci, chain, ends,
                      { domino with
                        originalIndex := some idx
                        displayValue1 := some domino.value1
                        displayValue2 := some domino.value2 },
                      hchain, hends, rfl,
                      Or.inr ⟨by rw [eq_of_beq hv2], rfl, rfl⟩⟩⟩
                next hv2 =>
                  have hv1 : domino.value1 = ends.1 := by
                    rcases Bool.or_eq_true_iff.mp hstart with h | h
                    · exact eq_of_beq h
                    · exact absurd h hv2
                  exact Or.inr ⟨domino, hdom, hin', Or.inr
                    ⟨ci, chain, ends,
                      { domino with
                        originalIndex := some idx
                        displayValue1 := some domino.value2
                        displayValue2 := some domino.value1 },
                      hchain, hends, rfl,
                      Or.inr ⟨by rw [hv1], rfl, rfl⟩⟩⟩

theorem joinChains_cases (s : GameState) (i j : Nat) :
    joinChains s i j = s ∨
    ∃ c1 c2 e1 e2 joined, i ≠ j ∧ s.chains[i]? = some c1 ∧ s.chains[j]? = some c2 ∧
      getChainEndValues c1 = some e1 ∧ getChainEndValues c2 = some e2 ∧
      joinedChain? c1 c2 e1 e2 = some joined ∧
      joinChains s i j = { s with
        chains := ((s.chains.eraseIdx (max i j)).eraseIdx (min i j)) ++ [joined]
        moveCount := s.moveCount + 1
        history := withHistory s } := by
  unfold joinChains
  split
  · exact Or.inl rfl
  next hij =>
    split
    next c1 c2 hc1 hc2 =>
      split
      · exact Or.inl rfl
      next hjoin =>
        split
        next e1 e2 he1 he2 =>
          split
          · exact Or.inl rfl
          next joined hjoined =>
            exact Or.inr ⟨c1, c2, e1, e2, joined, hij, hc1, hc2, he1, he2, hjoined, rfl⟩
        next h1 h2 => exact Or.inl rfl
    next h1 h2 => exact Or.inl rfl

theorem removeLastFromChain_cases (s : GameState) (ci : Nat) :
    removeLastFromChain s ci = s ∨
    ∃ chain removed, s.chains[ci]? = some chain ∧ chain.getLast? = some removed ∧
      removeLastFromChain s ci = { s with
        dominos := s.dominos.map fun d =>
          if d.id = removed.id then { d with inChain := false } else d
        chains :=
          if chain.dropLast.length = 0 then s.chains.eraseIdx ci
          else s.chains.set ci chain.dropLast
        history := withHistory s } := by
  unfold removeLastFromChain
  split
  · exact Or.inl rfl
  next chain hchain =>
    split
    · exact Or.inl rfl
    next removed hremoved =>
      exact Or.inr ⟨chain, removed, hchain, hremoved, rfl⟩

theorem clearChain_cases (s : GameState) (ci? : Option Nat) :
    clearChain s ci? = s ∨
    clearChain s ci? = { s with
      dominos := s.dominos.map fun d =>
        if ((match ci? with
             | none => s.chains.flatten
             | some i => (s.chains[i]?).getD []).map (fun x : Domino => x.id)).contains d.id
        then { d with inChain := false } else d
      chains := match ci? with
        | none => []
        | some i => s.chains.eraseIdx i
      history := withHistory s } := by
  unfold clearChain
  split
  · exact Or.inl rfl
  next h => exact Or.inr rfl

theorem reorderPairs_cases (s : GameState) (i j : Nat) :
    reorderPairs s i j = s ∨
    (i ≠ j ∧ i < s.pairs.length ∧ j < s.pairs.length ∧
      reorderPairs s i j = { s with
        pairs := jsReorder s.pairs i j
        history := withHistory s }) := by
  unfold reorderPairs
  split
  · exact Or.inl rfl
  next hij =>
    split
    · exact Or.inl rfl
    next hi =>
      split
      · exact Or.inl rfl
      next hj => exact Or.inr ⟨hij, by omega, by omega, rfl⟩

theorem reorderDominos_cases (s : GameState) (i j : Nat) :
    reorderDominos s i j = s ∨
    (i ≠ j ∧ i < s.dominos.length ∧ j < s.dominos.length ∧
      reorderDominos s i j = { s with
        dominos := jsReorder s.dominos i j
        history := withHistory s }) := by
  unfold reorderDominos
  split
  · exact Or.inl rfl
  next hij =>
    split
    · exact Or.inl rfl
    next hi =>
      split
      · exact Or.inl rfl
      next hj => exact Or.inr ⟨hij, by omega, by omega, rfl⟩

theorem reorderChains_cases (s : GameState) (i j : Nat) :
    reorderChains s i j = s ∨
    (i ≠ j ∧ i < s.chains.length ∧ j < s.chains.length ∧
      reorderChains s i j = { s with
        chains := jsReorder s.chains i j
        history := withHistory s }) := by
  unfold reorderChains
  split
  · exact Or.inl rfl
  next hij =>
    split
    · exact Or.inl rfl
    next hi =>
      split
      · exact Or.inl rfl
      next hj => exact Or.inr ⟨hij, by omega, by omega, rfl⟩

/-! ## Claim C3: win detection -/

/-- C3.  `checkWin(chains)` returns true iff `chains` holds exactly one
chain, that chain holds exactly 13 dominos (52 cards at 4 per domino), and
`checkCircular` holds of it, where `checkCircular chain` is: chain length at
least 2 and the chain's start label equals its end label. -/
theorem spec_C3_checkWin (chains : List DominoChain) :
    (checkWin chains = true ↔
      ∃ chain, chains = [chain] ∧ chain.length = 13 ∧ checkCircular chain = true)
    ∧ (∀ chain : DominoChain, checkCircular chain = true ↔
        2 ≤ chain.length ∧
          ∃ ends, getChainEndValues chain = some ends ∧ ends.1 = ends.2) := by
  constructor
  · cases chains with
    | nil => simp [checkWin]
    | cons c rest =>
      cases rest with
      | nil =>
        constructor
        · intro h
          have h' : (c.length * 4 == 52 && checkCircular c) = true := by
            simpa [checkWin] using h
          rcases Bool.and_eq_true_iff.mp h' with ⟨h1, h2⟩
          have hlen : c.length * 4 = 52 := by simpa using h1
          exact ⟨c, rfl, by omega, h2⟩
        · rintro ⟨chain, heq, hlen, hcirc⟩
          have hc : c = chain := by
            injection heq with h1 _
          subst hc
          simp [checkWin, hlen, hcirc]
      | cons d rest' =>
        constructor
        · intro h
          exact absurd h (by simp [checkWin])
        · rintro ⟨chain, heq, -, -⟩
          exact absurd heq (by simp)
  · intro chain
    cases chain with
    | nil => simp [checkCircular, getChainEndValues]
    | cons f rest =>
      cases rest with
      | nil => simp [checkCircular, getChainEndValues]
      | cons g rest' =>
        obtain ⟨x, hx⟩ : ∃ x, (f :: g :: rest').getLast? = some x :=
          ⟨(f :: g :: rest').getLast (by simp), List.getLast?_eq_getLast _ (by simp)⟩
        have hlen : ¬((f :: g :: rest').length < 2) := by simp
        have hGE : getChainEndValues (f :: g :: rest') =
            some (f.displayValue1.getD f.value1, x.displayValue2.getD x.value2) := by
          simp only [getChainEndValues, List.head?_cons, hx]
        unfold checkCircular
        rw [if_neg hlen, hGE]
        simp only [List.head?_cons, hx]
        constructor
        · intro h
          exact ⟨by simp only [List.length_cons]; omega, ⟨_, rfl, eq_of_beq h⟩⟩
        · rintro ⟨-, ends, hends, heq⟩
          injection hends with h1
          rw [← h1] at heq
          exact beq_iff_eq.mpr heq

/-! ## Claim C10: moveCount frame conditions -/

/-- Shared workhorse: exact `moveCount` behaviour of every non-undo
operation. -/
theorem moveCount_frame_all (s : GameState) :
    (∀ i, (removeLastFromChain s i).moveCount = s.moveCount)
    ∧ (∀ i?, (clearChain s i?).moveCount = s.moveCount)
    ∧ (∀ i j, (reorderPairs s i j).moveCount = s.moveCount)
    ∧ (∀ i j, (reorderDominos s i j).moveCount = s.moveCount)
    ∧ (∀ i j, (reorderChains s i j).moveCount = s.moveCount)
    ∧ (∀ i j, moveCard s i j ≠ s → (moveCard s i j).moveCount = s.moveCount + 1)
    ∧ (∀ i j, createPairFromTableau s i j ≠ s →
        (createPairFromTableau s i j).moveCount = s.moveCount + 1)
    ∧ (∀ i j newId, createDominoFromPairs s i j newId ≠ s →
        (createDominoFromPairs s i j newId).moveCount = s.moveCount + 1)
    ∧ (∀ i ci?, addDominoToChain s i ci? ≠ s →
        (addDominoToChain s i ci?).moveCount = s.moveCount + 1)
    ∧ (∀ i j, joinChains s i j ≠ s → (joinChains s i j).moveCount = s.moveCount + 1) := by
  refine ⟨?_, ?_, ?_, ?_, ?_, ?_, ?_, ?_, ?_, ?_⟩
  · intro i
    rcases removeLastFromChain_cases s i with h | ⟨c, r, -, -, h⟩ <;> rw [h]
  · intro i?
    rcases clearChain_cases s i? with h | h <;> rw [h]
  · intro i j
    rcases reorderPairs_cases s i j with h | ⟨-, -, -, h⟩ <;> rw [h]
  · intro i j
    rcases reorderDominos_cases s i j with h | ⟨-, -, -, h⟩ <;> rw [h]
  · intro i j
    rcases reorderChains_cases s i j with h | ⟨-, -, -, h⟩ <;> rw [h]
  · intro i j hne
    rcases moveCard_cases s i j with h | ⟨fc, tc, card, -, -, -, -, h⟩
    · exact absurd h hne
    · rw [h]
  · intro i j hne
    rcases createPairFromTableau_cases s i j with h | ⟨fc, tc, c1, c2, -, -, -, -, -, -, -, h⟩
    · exact absurd h hne
    · rw [h]
  · intro i j newId hne
    rcases createDominoFromPairs_cases s i j newId with h | ⟨p1, p2, op1, op2, -, -, -, -, -, h⟩
    · exact absurd h hne
    · rw [h]
  · intro i ci? hne
    rcases addDominoToChain_cases s i ci? with h | ⟨d, -, -, hcase⟩
    · exact absurd h hne
    · rcases hcase with h | ⟨ci, chain, ends, oriented, -, -, -, hcase2⟩
      · rw [h]
      · rcases hcase2 with ⟨-, -, h⟩ | ⟨-, -, h⟩ <;> rw [h]
  · intro i j hne
    rcases joinChains_cases s i j with h | ⟨c1, c2, e1, e2, joined, -, -, -, -, -, -, h⟩
    · exact absurd h hne
    · rw [h]

/-- C10.  `removeLastFromChain`, `clearChain`, `reorderPairs`,
`reorderDominos` and `reorderChains` never change `moveCount`, for every
state and all arguments; while `moveCard`, `createPairFromTableau`,
`createDominoFromPairs`, `addDominoToChain` and `joinChains` increment
`moveCount` by exactly 1 whenever they do not reject (i.e. whenever the
returned state differs from the input). -/
theorem spec_C10_moveCount_frame (s : GameState) :
    (∀ i, (removeLastFromChain s i).moveCount = s.moveCount)
    ∧ (∀ i?, (clearChain s i?).moveCount = s.moveCount)
    ∧ (∀ i j, (reorderPairs s i j).moveCount = s.moveCount)
    ∧ (∀ i j, (reorderDominos s i j).moveCount = s.moveCount)
    ∧ (∀ i j, (reorderChains s i j).moveCount = s.moveCount)
    ∧ (∀ i j, moveCard s i j ≠ s → (moveCard s i j).moveCount = s.moveCount + 1)
    ∧ (∀ i j, createPairFromTableau s i j ≠ s →
        (createPairFromTableau s i j).moveCount = s.moveCount + 1)
    ∧ (∀ i j newId, createDominoFromPairs s i j newId ≠ s →
        (createDominoFromPairs s i j newId).moveCount = s.moveCount + 1)
    ∧ (∀ i ci?, addDominoToChain s i ci? ≠ s →
        (addDominoToChain s i ci?).moveCount = s.moveCount + 1)
    ∧ (∀ i j, joinChains s i j ≠ s → (joinChains s i j).moveCount = s.moveCount + 1) :=
  moveCount_frame_all s

/-- Witness for C10 at a concrete input: from the freshly dealt canonical
deck, the move of column 4's top onto column 6 succeeds and increments
`moveCount`, while `removeLastFromChain` (a rejection here) leaves it. -/
theorem spec_C10_moveCount_frame_witness :
    (moveCard (createInitialState createDeck) 4 6).moveCount =
      (createInitialState createDeck).moveCount + 1
    ∧ (removeLastFromChain (createInitialState createDeck) 0).moveCount =
      (createInitialState createDeck).moveCount := by
  constructor
  · exact (spec_C10_moveCount_frame (createInitialState createDeck)).2.2.2.2.2.1 4 6
      (by intro heq; exact absurd (congrArg GameState.moveCount heq) (by decide))
  · exact (spec_C10_moveCount_frame (createInitialState createDeck)).1 0

/-! ## Claim C6: undo round-trip -/

/-- C6.  After any mutating operation that actually changed the state, one
`undoState` restores `tableau`, `pairs`, `dominos` and `moveCount` to their
pre-operation values; and `undoState` on an empty history returns the state
unchanged. -/
theorem spec_C6_undo_roundtrip (s : GameState) :
    (s.history = [] → undoState s = s)
    ∧ (∀ i j, moveCard s i j ≠ s →
        (undoState (moveCard s i j)).tableau = s.tableau ∧
        (undoState (moveCard s i j)).pairs = s.pairs ∧
        (undoState (moveCard s i j)).dominos = s.dominos ∧
        (undoState (moveCard s i j)).moveCount = s.moveCount)
    ∧ (∀ i j, createPairFromTableau s i j ≠ s →
        (undoState (createPairFromTableau s i j)).tableau = s.tableau ∧
        (undoState (createPairFromTableau s i j)).pairs = s.pairs ∧
        (undoState (createPairFromTableau s i j)).dominos = s.dominos ∧
        (undoState (createPairFromTableau s i j)).moveCount = s.moveCount)
    ∧ (∀ i j newId, createDominoFromPairs s i j newId ≠ s →
        (undoState (createDominoFromPairs s i j newId)).tableau = s.tableau ∧
        (undoState (createDominoFromPairs s i j newId)).pairs = s.pairs ∧
        (undoState (createDominoFromPairs s i j newId)).dominos = s.dominos ∧
        (undoState (createDominoFromPairs s i j newId)).moveCount = s.moveCount)
    ∧ (∀ i ci?, addDominoToChain s i ci? ≠ s →
        (undoState (addDominoToChain s i ci?)).tableau = s.tableau ∧
        (undoState (addDominoToChain s i ci?)).pairs = s.pairs ∧
        (undoState (addDominoToChain s i ci?)).dominos = s.dominos ∧
        (undoState (addDominoToChain s i ci?)).moveCount = s.moveCount)
    ∧ (∀ i j, joinChains s i j ≠ s →
        (undoState (joinChains s i j)).tableau = s.tableau ∧
        (undoState (joinChains s i j)).pairs = s.pairs ∧
        (undoState (joinChains s i j)).dominos = s.dominos ∧
        (undoState (joinChains s i j)).moveCount = s.moveCount)
    ∧ (∀ i, removeLastFromChain s i ≠ s →
        (undoState (removeLastFromChain s i)).tableau = s.tableau ∧
        (undoState (removeLastFromChain s i)).pairs = s.pairs ∧
        (undoState (removeLastFromChain s i)).dominos = s.dominos ∧
        (undoState (removeLastFromChain s i)).moveCount = s.moveCount)
    ∧ (∀ ci?, clearChain s ci? ≠ s →
        (undoState (clearChain s ci?)).tableau = s.tableau ∧
        (undoState (clearChain s ci?)).pairs = s.pairs ∧
        (undoState (clearChain s ci?)).dominos = s.dominos ∧
        (undoState (clearChain s ci?)).moveCount = s.moveCount)
    ∧ (∀ i j, reorderPairs s i j ≠ s →
        (undoState (reorderPairs s i j)).tableau = s.tableau ∧
        (undoState (reorderPairs s i j)).pairs = s.pairs ∧
        (undoState (reorderPairs s i j)).dominos = s.dominos ∧
        (undoState (reorderPairs s i j)).moveCount = s.moveCount)
    ∧ (∀ i j, reorderDominos s i j ≠ s →
        (undoState (reorderDominos s i j)).tableau = s.tableau ∧
        (undoState (reorderDominos s i j)).pairs = s.pairs ∧
        (undoState (reorderDominos s i j)).dominos = s.dominos ∧
        (undoState (reorderDominos s i j)).moveCount = s.moveCount)
    ∧ (∀ i j, reorderChains s i j ≠ s →
        (undoState (reorderChains s i j)).tableau = s.tableau ∧
        (undoState (reorderChains s i j)).pairs = s.pairs ∧
        (undoState (reorderChains s i j)).dominos = s.dominos ∧
        (undoState (reorderChains s i j)).moveCount = s.moveCount) := by
  have restore : ∀ t : GameState, t.history = withHistory s →
      (undoState t).tableau = s.tableau ∧ (undoState t).pairs = s.pairs ∧
      (undoState t).dominos = s.dominos ∧ (undoState t).moveCount = s.moveCount := by
    intro t ht
    obtain ⟨h1, h2, h3, h4, h5⟩ := undo_of_withHistory s t ht
    exact ⟨h1, h2, h3, h5⟩
  refine ⟨?_, ?_, ?_, ?_, ?_, ?_, ?_, ?_, ?_, ?_, ?_⟩
  · intro h
    simp [undoState, h]
  · intro i j hne
    rcases moveCard_cases s i j with h | ⟨fc, tc, card, -, -, -, -, h⟩
    · exact absurd h hne
    · exact restore _ (by rw [h])
  · intro i j hne
    rcases createPairFromTableau_cases s i j with h | ⟨fc, tc, c1, c2, -, -, -, -, -, -, -, h⟩
    · exact absurd h hne
    · exact restore _ (by rw [h])
  · intro i j newId hne
    rcases createDominoFromPairs_cases s i j newId with h | ⟨p1, p2, op1, op2, -, -, -, -, -, h⟩
    · exact absurd h hne
    · exact restore _ (by rw [h])
  · intro i ci? hne
    rcases addDominoToChain_cases s i ci? with h | ⟨d, -, -, hcase⟩
    · exact absurd h hne
    · rcases hcase with h | ⟨ci, chain, ends, oriented, -, -, -, hcase2⟩
      · exact restore _ (by rw [h])
      · rcases hcase2 with ⟨-, -, h⟩ | ⟨-, -, h⟩ <;> exact restore _ (by rw [h])
  · intro i j hne
    rcases joinChains_cases s i j with h | ⟨c1, c2, e1, e2, joined, -, -, -, -, -, -, h⟩
    · exact absurd h hne
    · exact restore _ (by rw [h])
  · intro i hne
    rcases removeLastFromChain_cases s i with h | ⟨chain, removed, -, -, h⟩
    · exact absurd h hne
    · exact restore _ (by rw [h])
  · intro ci? hne
    rcases clearChain_cases s ci? with h | h
    · exact absurd h hne
    · exact restore _ (by rw [h])
  · intro i j hne
    rcases reorderPairs_cases s i j with h | ⟨-, -, -, h⟩
    · exact absurd h hne
    · exact restore _ (by rw [h])
  · intro i j hne
    rcases reorderDominos_cases s i j with h | ⟨-, -, -, h⟩
    · exact absurd h hne
    · exact restore _ (by rw [h])
  · intro i j hne
    rcases reorderChains_cases s i j with h | ⟨-, -, -, h⟩
    · exact absurd h hne
    · exact restore _ (by rw [h])

/-- Witness for C6 at a concrete input: move column 4's top onto column 6 in
the freshly dealt canonical game, then undo; all four components return to
their initial values, and undo of the fresh state (empty history) is a
no-op. -/
theorem spec_C6_undo_roundtrip_witness :
    (undoState (moveCard (createInitialState createDeck) 4 6)).tableau =
      (createInitialState createDeck).tableau
    ∧ (undoState (moveCard (createInitialState createDeck) 4 6)).moveCount =
      (createInitialState createDeck).moveCount
    ∧ undoState (createInitialState createDeck) = createInitialState createDeck := by
  have hne : moveCard (createInitialState createDeck) 4 6 ≠ createInitialState createDeck := by
    intro heq
    exact absurd (congrArg GameState.moveCount heq) (by decide)
  obtain ⟨h1, -, -, h4⟩ := (spec_C6_undo_roundtrip (createInitialState createDeck)).2.1 4 6 hne
  exact ⟨h1, h4, (spec_C6_undo_roundtrip (createInitialState createDeck)).1 rfl⟩

/-! ## Claim C8: moveCount monotonicity (corrected) -/

/-- Counterexample to C8 as stated: `undoState` is one of the listed
transition functions, yet on the reachable state obtained by one successful
`moveCard` from the canonical deal it strictly decreases `moveCount`
(from 1 back to 0). -/
theorem spec_C8_counterexample :
    Reachable createDeck (moveCard (createInitialState createDeck) 4 6)
    ∧ (undoState (moveCard (createInitialState createDeck) 4 6)).moveCount <
      (moveCard (createInitialState createDeck) 4 6).moveCount :=
  ⟨Reachable.move 4 6 Reachable.init, by decide⟩

/-- C8 (amended).  For every state (reachable or not) and every transition
function of the engine other than `undoState` — `moveCard`,
`createPairFromTableau`, `createDominoFromPairs`, `addDominoToChain`,
`joinChains`, `removeLastFromChain`, `clearChain` and the three reorder
operations — the resulting `moveCount` is at least the input `moveCount`;
`undoState` instead restores the previous snapshot's `moveCount`, which can
be strictly smaller. -/
theorem spec_C8_moveCount_monotone (s : GameState) :
    (∀ i j, s.moveCount ≤ (moveCard s i j).moveCount)
    ∧ (∀ i j, s.moveCount ≤ (createPairFromTableau s i j).moveCount)
    ∧ (∀ i j newId, s.moveCount ≤ (createDominoFromPairs s i j newId).moveCount)
    ∧ (∀ i ci?, s.moveCount ≤ (addDominoToChain s i ci?).moveCount)
    ∧ (∀ i j, s.moveCount ≤ (joinChains s i j).moveCount)
    ∧ (∀ i, s.moveCount ≤ (removeLastFromChain s i).moveCount)
    ∧ (∀ ci?, s.moveCount ≤ (clearChain s ci?).moveCount)
    ∧ (∀ i j, s.moveCount ≤ (reorderPairs s i j).moveCount)
    ∧ (∀ i j, s.moveCount ≤ (reorderDominos s i j).moveCount)
    ∧ (∀ i j, s.moveCount ≤ (reorderChains s i j).moveCount) := by
  obtain ⟨f1, f2, f3, f4, f5, g1, g2, g3, g4, g5⟩ := moveCount_frame_all s
  refine ⟨?_, ?_, ?_, ?_, ?_, ?_, ?_, ?_, ?_, ?_⟩
  · intro i j
    by_cases h : moveCard s i j = s
    · rw [h]
    · rw [g1 i j h]; omega
  · intro i j
    by_cases h : createPairFromTableau s i j = s
    · rw [h]
    · rw [g2 i j h]; omega
  · intro i j newId
    by_cases h : createDominoFromPairs s i j newId = s
    · rw [h]
    · rw [g3 i j newId h]; omega
  · intro i ci?
    by_cases h : addDominoToChain s i ci? = s
    · rw [h]
    · rw [g4 i ci? h]; omega
  · intro i j
    by_cases h : joinChains s i j = s
    · rw [h]
    · rw [g5 i j h]; omega
  · intro i
    rw [f1 i]
  · intro ci?
    rw [f2 ci?]
  · intro i j
    rw [f3 i j]
  · intro i j
    rw [f4 i j]
  · intro i j
    rw [f5 i j]

/-! ## Claim C9: history bound and FIFO eviction -/

/-- Shared workhorse: each operation leaves the history unchanged (rejection)
or replaces it by `withHistory s`. -/
theorem history_cases_all (s : GameState) :
    (∀ i j, (moveCard s i j).history = s.history ∨ (moveCard s i j).history = withHistory s)
    ∧ (∀ i j, (createPairFromTableau s i j).history = s.history ∨
        (createPairFromTableau s i j).history = withHistory s)
    ∧ (∀ i j newId, (createDominoFromPairs s i j newId).history = s.history ∨
        (createDominoFromPairs s i j newId).history = withHistory s)
    ∧ (∀ i ci?, (addDominoToChain s i ci?).history = s.history ∨
        (addDominoToChain s i ci?).history = withHistory s)
    ∧ (∀ i j, (joinChains s i j).history = s.history ∨
        (joinChains s i j).history = withHistory s)
    ∧ (∀ i, (removeLastFromChain s i).history = s.history ∨
        (removeLastFromChain s i).history = withHistory s)
    ∧ (∀ ci?, (clearChain s ci?).history = s.history ∨
        (clearChain s ci?).history = withHistory s)
    ∧ (∀ i j, (reorderPairs s i j).history = s.history ∨
        (reorderPairs s i j).history = withHistory s)
    ∧ (∀ i j, (reorderDominos s i j).history = s.history ∨
        (reorderDominos s i j).history = withHistory s)
    ∧ (∀ i j, (reorderChains s i j).history = s.history ∨
        (reorderChains s i j).history = withHistory s) := by
  refine ⟨?_, ?_, ?_, ?_, ?_, ?_, ?_, ?_, ?_, ?_⟩
  · intro i j
    rcases moveCard_cases s i j with h | ⟨fc, tc, card, -, -, -, -, h⟩ <;> rw [h]
    · exact Or.inl rfl
    · exact Or.inr rfl
  · intro i j
    rcases createPairFromTableau_cases s i j with h | ⟨fc, tc, c1, c2, -, -, -, -, -, -, -, h⟩ <;>
      rw [h]
    · exact Or.inl rfl
    · exact Or.inr rfl
  · intro i j newId
    rcases createDominoFromPairs_cases s i j newId with h | ⟨p1, p2, op1, op2, -, -, -, -, -, h⟩ <;>
      rw [h]
    · exact Or.inl rfl
    · exact Or.inr rfl
  · intro i ci?
    rcases addDominoToChain_cases s i ci? with h | ⟨d, -, -, hcase⟩
    · rw [h]; exact Or.inl rfl
    · rcases hcase with h | ⟨ci, chain, ends, oriented, -, -, -, hcase2⟩
      · rw [h]; exact Or.inr rfl
      · rcases hcase2 with ⟨-, -, h⟩ | ⟨-, -, h⟩ <;> rw [h] <;> exact Or.inr rfl
  · intro i j
    rcases joinChains_cases s i j with h | ⟨c1, c2, e1, e2, joined, -, -, -, -, -, -, h⟩ <;> rw [h]
    · exact Or.inl rfl
    · exact Or.inr rfl
  · intro i
    rcases removeLastFromChain_cases s i with h | ⟨chain, removed, -, -, h⟩ <;> rw [h]
    · exact Or.inl rfl
    · exact Or.inr rfl
  · intro ci?
    rcases clearChain_cases s ci? with h | h <;> rw [h]
    · exact Or.inl rfl
    · exact Or.inr rfl
  · intro i j
    rcases reorderPairs_cases s i j with h | ⟨-, -, -, h⟩ <;> rw [h]
    · exact Or.inl rfl
    · exact Or.inr rfl
  · intro i j
    rcases reorderDominos_cases s i j with h | ⟨-, -, -, h⟩ <;> rw [h]
    · exact Or.inl rfl
    · exact Or.inr rfl
  · intro i j
    rcases reorderChains_cases s i j with h | ⟨-, -, -, h⟩ <;> rw [h]
    · exact Or.inl rfl
    · exact Or.inr rfl

/-- The history bound along every reachable state. -/
theorem reachable_history_le (deck : List Card) (s : GameState)
    (h : Reachable deck s) : s.history.length ≤ MAX_HISTORY := by
  induction h with
  | init => simp [createInitialState, MAX_HISTORY]
  | move i j hr ih =>
    rcases (history_cases_all _).1 i j with h | h <;> rw [h]
    · exact ih
    · exact withHistory_length_le _ ih
  | pair i j hr ih =>
    rcases (history_cases_all _).2.1 i j with h | h <;> rw [h]
    · exact ih
    · exact withHistory_length_le _ ih
  | dom i j newId hr ih =>
    rcases (history_cases_all _).2.2.1 i j newId with h | h <;> rw [h]
    · exact ih
    · exact withHistory_length_le _ ih
  | add i ci? hr ih =>
    rcases (history_cases_all _).2.2.2.1 i ci? with h | h <;> rw [h]
    · exact ih
    · exact withHistory_length_le _ ih
  | join i j hr ih =>
    rcases (history_cases_all _).2.2.2.2.1 i j with h | h <;> rw [h]
    · exact ih
    · exact withHistory_length_le _ ih
  | removeLast i hr ih =>
    rcases (history_cases_all _).2.2.2.2.2.1 i with h | h <;> rw [h]
    · exact ih
    · exact withHistory_length_le _ ih
  | clear ci? hr ih =>
    rcases (history_cases_all _).2.2.2.2.2.2.1 ci? with h | h <;> rw [h]
    · exact ih
    · exact withHistory_length_le _ ih
  | rpairs i j hr ih =>
    rcases (history_cases_all _).2.2.2.2.2.2.2.1 i j with h | h <;> rw [h]
    · exact ih
    · exact withHistory_length_le _ ih
  | rdominos i j hr ih =>
    rcases (history_cases_all _).2.2.2.2.2.2.2.2.1 i j with h | h <;> rw [h]
    · exact ih
    · exact withHistory_length_le _ ih
  | rchains i j hr ih =>
    rcases (history_cases_all _).2.2.2.2.2.2.2.2.2 i j with h | h <;> rw [h]
    · exact ih
    · exact withHistory_length_le _ ih
  | undo hr ih =>
    unfold undoState
    split
    · exact ih
    · simp only [List.length_dropLast]
      omega

/-- C9.  (1) In every reachable state the history stack holds at most 50
snapshots.  (2) Every operation either keeps the history (rejection) or
replaces it by `withHistory` of the input state.  (3) When the history
already holds 50 entries, `withHistory` evicts the oldest (front) entry and
appends the new snapshot at the back — FIFO eviction. -/
theorem spec_C9_history_bound :
    (∀ deck s, Reachable deck s → s.history.length ≤ MAX_HISTORY)
    ∧ (∀ s : GameState, s.history.length = MAX_HISTORY →
        withHistory s = s.history.tail ++ [snapshotState s])
    ∧ (∀ s : GameState,
        (∀ i j, (moveCard s i j).history = s.history ∨
          (moveCard s i j).history = withHistory s)
        ∧ (∀ i j, (createPairFromTableau s i j).history = s.history ∨
            (createPairFromTableau s i j).history = withHistory s)
        ∧ (∀ i j newId, (createDominoFromPairs s i j newId).history = s.history ∨
            (createDominoFromPairs s i j newId).history = withHistory s)
        ∧ (∀ i ci?, (addDominoToChain s i ci?).history = s.history ∨
            (addDominoToChain s i ci?).history = withHistory s)
        ∧ (∀ i j, (joinChains s i j).history = s.history ∨
            (joinChains s i j).history = withHistory s)
        ∧ (∀ i, (removeLastFromChain s i).history = s.history ∨
            (removeLastFromChain s i).history = withHistory s)
        ∧ (∀ ci?, (clearChain s ci?).history = s.history ∨
            (clearChain s ci?).history = withHistory s)
        ∧ (∀ i j, (reorderPairs s i j).history = s.history ∨
            (reorderPairs s i j).history = withHistory s)
        ∧ (∀ i j, (reorderDominos s i j).history = s.history ∨
            (reorderDominos s i j).history = withHistory s)
        ∧ (∀ i j, (reorderChains s i j).history = s.history ∨
            (reorderChains s i j).history = withHistory s)) :=
  ⟨reachable_history_le, withHistory_full, history_cases_all⟩

/-- Witness for C9 at concrete inputs: the canonical initial state is
reachable and within the bound; a concrete state whose history already holds
exactly 50 snapshots evicts its front entry on the next push. -/
theorem spec_C9_history_bound_witness :
    (createInitialState createDeck).history.length ≤ MAX_HISTORY
    ∧ withHistory
        { createInitialState [] with
          history := List.replicate MAX_HISTORY (snapshotState (createInitialState [])) } =
      (List.replicate MAX_HISTORY (snapshotState (createInitialState []))).tail ++
        [snapshotState
          { createInitialState [] with
            history := List.replicate MAX_HISTORY (snapshotState (createInitialState [])) }] :=
  ⟨spec_C9_history_bound.1 createDeck _ Reachable.init,
   spec_C9_history_bound.2.1 _ (by simp)⟩

/-! ## List and multiset utilities for card accounting -/

theorem jsMapIdxAux_succ (f : Nat → α → β) (l : List α) :
    ∀ n, jsMapIdxAux f (n + 1) l = jsMapIdxAux (fun k a => f (k + 1) a) n l := by
  induction l with
  | nil => intro n; rfl
  | cons a as ih => intro n; simp only [jsMapIdxAux, ih (n + 1)]

theorem jsMapIdx_cons (f : Nat → α → β) (hd : α) (tl : List α) :
    jsMapIdx f (hd :: tl) = f 0 hd :: jsMapIdx (fun k a => f (k + 1) a) tl := by
  simp only [jsMapIdx, jsMapIdxAux, jsMapIdxAux_succ]

theorem jsMapIdx_id : ∀ l : List α, jsMapIdx (fun _ a => a) l = l := by
  intro l
  induction l with
  | nil => rfl
  | cons hd tl ih => rw [jsMapIdx_cons]; exact congrArg (hd :: ·) ih

theorem jsMapIdx_getElem? (l : List α) :
    ∀ (f : Nat → α → β) (i : Nat), (jsMapIdx f l)[i]? = (l[i]?).map (fun a => f i a) := by
  induction l with
  | nil => intro f i; rfl
  | cons hd tl ih =>
    intro f i
    rw [jsMapIdx_cons]
    cases i with
    | zero => simp
    | succ i' => simpa using ih (fun k a => f (k + 1) a) i'

theorem jsMapIdx_comp (l : List α) :
    ∀ (f g : Nat → α → α), jsMapIdx (fun k a => f k (g k a)) l = jsMapIdx f (jsMapIdx g l) := by
  induction l with
  | nil => intro f g; rfl
  | cons hd tl ih =>
    intro f g
    rw [jsMapIdx_cons, jsMapIdx_cons, jsMapIdx_cons]
    exact congrArg (f 0 (g 0 hd) :: ·) (ih _ _)

theorem flatten_one_update (g : List Card → List Card) :
    ∀ (l : List (List Card)) (j : Nat) (cj : List Card), l[j]? = some cj →
    ((jsMapIdx (fun idx col => if idx = j then g col else col) l).flatten : Multiset Card)
        + (cj : Multiset Card)
      = (l.flatten : Multiset Card) + (g cj : Multiset Card) := by
  intro l
  induction l with
  | nil => intro j cj h; simp at h
  | cons hd tl ih =>
    intro j cj h
    rw [jsMapIdx_cons]
    cases j with
    | zero =>
      simp only [List.getElem?_cons_zero, Option.some_inj] at h
      subst h
      have hfun : (fun (k : Nat) (col : List Card) => if k + 1 = 0 then g col else col)
          = fun _ col => col := by
        funext k col; simp
      rw [if_pos rfl, hfun, jsMapIdx_id]
      simp only [List.flatten_cons, ← Multiset.coe_add]
      abel
    | succ j' =>
      simp only [List.getElem?_cons_succ] at h
      have hfun : (fun (k : Nat) (col : List Card) => if k + 1 = j' + 1 then g col else col)
          = fun k col => if k = j' then g col else col := by
        funext k col; simp
      rw [if_neg (by omega), hfun]
      simp only [List.flatten_cons, ← Multiset.coe_add]
      rw [add_assoc, add_assoc, ih j' cj h]

theorem flatten_two_update (f g : List Card → List Card) (l : List (List Card)) (i j : Nat)
    (ci cj : List Card) (hij : i ≠ j) (hi : l[i]? = some ci) (hj : l[j]? = some cj) :
    ((jsMapIdx (fun idx col =>
        if idx = i then f col else if idx = j then g col else col) l).flatten : Multiset Card)
        + (ci : Multiset Card) + (cj : Multiset Card)
      = (l.flatten : Multiset Card) + (f ci : Multiset Card) + (g cj : Multiset Card) := by
  have hsplit : (fun (idx : Nat) (col : List Card) =>
      if idx = i then f col else if idx = j then g col else col)
        = fun idx col =>
          (fun k c => if k = i then f c else c) idx ((fun k c => if k = j then g c else c) idx col)
      := by
    funext idx col
    by_cases h1 : idx = i
    · subst h1
      simp [hij]
    · simp [h1]
  have hcomp := jsMapIdx_comp l (fun k c => if k = i then f c else c)
    (fun k c => if k = j then g c else c)
  rw [hsplit, hcomp]
  have hinner : (jsMapIdx (fun k c => if k = j then g c else c) l)[i]? = some ci := by
    rw [jsMapIdx_getElem?, hi]
    simp [if_neg hij]
  have e1 := flatten_one_update f (jsMapIdx (fun k c => if k = j then g c else c) l) i ci hinner
  have e2 := flatten_one_update g l j cj hj
  calc ((jsMapIdx (fun k c => if k = i then f c else c)
          (jsMapIdx (fun k c => if k = j then g c else c) l)).flatten : Multiset Card)
          + (ci : Multiset Card) + (cj : Multiset Card)
      = (((jsMapIdx (fun k c => if k = j then g c else c) l).flatten : Multiset Card)
          + (f ci : Multiset Card)) + (cj : Multiset Card) := by rw [e1]
    _ = (((jsMapIdx (fun k c => if k = j then g c else c) l).flatten : Multiset Card)
          + (cj : Multiset Card)) + (f ci : Multiset Card) := by rw [add_right_comm]
    _ = ((l.flatten : Multiset Card) + (g cj : Multiset Card)) + (f ci : Multiset Card) := by
          rw [e2]
    _ = (l.flatten : Multiset Card) + (f ci : Multiset Card) + (g cj : Multiset Card) := by
          rw [add_right_comm]

theorem pushAt_length (t : List (List Card)) :
    ∀ (k : Nat) (c : Card), (pushAt t k c).length = t.length := by
  induction t with
  | nil => intro k c; rfl
  | cons col rest ih =>
    intro k c
    cases k with
    | zero => rfl
    | succ k' => simp only [pushAt, List.length_cons, ih k' c]

theorem pushAt_flatten (t : List (List Card)) :
    ∀ (k : Nat) (c : Card), k < t.length →
      ((pushAt t k c).flatten : Multiset Card) = c ::ₘ (t.flatten : Multiset Card) := by
  induction t with
  | nil => intro k c hk; simp at hk
  | cons col rest ih =>
    intro k c hk
    cases k with
    | zero =>
      simp only [pushAt, List.flatten_cons, ← Multiset.coe_add, ← Multiset.singleton_add,
        ← Multiset.coe_singleton]
      abel
    | succ k' =>
      simp only [List.length_cons] at hk
      simp only [pushAt, List.flatten_cons, ← Multiset.coe_add, ih k' c (by omega),
        ← Multiset.singleton_add]
      abel

theorem dealTableauAux_flatten (cc : Nat) (hcc : 0 < cc) :
    ∀ (deck : List Card) (i : Nat) (t : List (List Card)), t.length = cc →
      ((dealTableauAux cc i deck t).flatten : Multiset Card)
        = (deck : Multiset Card) + (t.flatten : Multiset Card) := by
  intro deck
  induction deck with
  | nil => intro i t ht; simp [dealTableauAux]
  | cons c rest ih =>
    intro i t ht
    have hlen : (pushAt t (i % cc) c).length = cc := by rw [pushAt_length]; exact ht
    have hk : i % cc < t.length := by rw [ht]; exact Nat.mod_lt _ hcc
    simp only [dealTableauAux, ih (i + 1) _ hlen, pushAt_flatten t (i % cc) c hk,
      ← Multiset.cons_coe, ← Multiset.singleton_add]
    abel

theorem dealTableau_flatten (deck : List Card) :
    ((dealTableau deck 8).flatten : Multiset Card) = (deck : Multiset Card) := by
  rw [dealTableau, dealTableauAux_flatten 8 (by omega) deck 0 _ (by simp)]
  simp [show (List.replicate 8 ([] : List Card)).flatten = [] from rfl]

theorem getElem?_eraseIdx_lt (l : List α) :
    ∀ i j, j < i → (l.eraseIdx i)[j]? = l[j]? := by
  induction l with
  | nil => intro i j h; rfl
  | cons hd tl ih =>
    intro i j h
    cases i with
    | zero => omega
    | succ i' =>
      cases j with
      | zero => simp [List.eraseIdx_cons_succ]
      | succ j' =>
        simp only [List.eraseIdx_cons_succ, List.getElem?_cons_succ]
        exact ih i' j' (by omega)

theorem perm_cons_eraseIdx (l : List α) :
    ∀ (i : Nat) (x : α), l[i]? = some x → List.Perm l (x :: l.eraseIdx i) := by
  induction l with
  | nil => intro i x h; simp at h
  | cons hd tl ih =>
    intro i x h
    cases i with
    | zero =>
      simp only [List.getElem?_cons_zero, Option.some_inj] at h
      subst h
      exact List.Perm.refl _
    | succ i' =>
      simp only [List.getElem?_cons_succ] at h
      exact ((ih i' x h).cons hd).trans (List.Perm.swap x hd _)

theorem perm_double_erase_lt (l : List α) (lo hi : Nat) (a b : α) (hlt : lo < hi)
    (ha : l[lo]? = some a) (hb : l[hi]? = some b) :
    List.Perm l (a :: b :: (l.eraseIdx hi).eraseIdx lo) := by
  have h1 : List.Perm l (b :: l.eraseIdx hi) := perm_cons_eraseIdx l hi b hb
  have ha' : (l.eraseIdx hi)[lo]? = some a := by rw [getElem?_eraseIdx_lt l hi lo hlt]; exact ha
  have h2 : List.Perm (l.eraseIdx hi) (a :: (l.eraseIdx hi).eraseIdx lo) :=
    perm_cons_eraseIdx _ lo a ha'
  exact (h1.trans (h2.cons b)).trans (List.Perm.swap a b _)

theorem mem_of_set (l : List α) :
    ∀ (n : Nat) (a x : α), x ∈ l.set n a → x = a ∨ x ∈ l := by
  induction l with
  | nil => intro n a x h; simp at h
  | cons hd tl ih =>
    intro n a x h
    cases n with
    | zero =>
      rcases List.mem_cons.mp h with h | h
      · exact Or.inl h
      · exact Or.inr (List.mem_cons_of_mem _ h)
    | succ n' =>
      rcases List.mem_cons.mp h with h | h
      · exact Or.inr (h ▸ List.mem_cons_self _ _)
      · rcases ih n' a x h with h' | h'
        · exact Or.inl h'
        · exact Or.inr (List.mem_cons_of_mem _ h')

theorem mem_of_eraseIdx {l : List α} {i : Nat} {x : α} (h : x ∈ l.eraseIdx i) : x ∈ l := by
  rw [List.eraseIdx_eq_take_drop_succ] at h
  rcases List.mem_append.mp h with h | h
  · exact List.take_subset _ _ h
  · exact List.drop_subset _ _ h

theorem jsReorder_perm (l : List α) (i j : Nat) (hi : i < l.length) (hj : j < l.length) :
    List.Perm (jsReorder l i j) l := by
  obtain ⟨x, hx⟩ : ∃ x, l[i]? = some x := ⟨l[i], List.getElem?_eq_getElem hi⟩
  unfold jsReorder
  rw [hx]
  have hle : j ≤ (l.eraseIdx i).length := by
    rw [List.length_eraseIdx_of_lt hi]
    omega
  exact (List.perm_insertIdx x _ hle).trans (perm_cons_eraseIdx l i x hx).symm

/-! ## Card accounting per operation -/

theorem coe_of_getLast? {l : List Card} {x : Card} (h : l.getLast? = some x) :
    (l : Multiset Card) = (l.dropLast : Multiset Card) + {x} := by
  have hne : l ≠ [] := by
    intro hnil
    rw [hnil] at h
    simp at h
  have hx : l.getLast hne = x := by
    rw [List.getLast?_eq_getLast l hne] at h
    exact Option.some_inj.mp h
  conv_lhs => rw [← List.dropLast_append_getLast hne, hx]
  rw [← Multiset.coe_add]
  rfl

theorem stateCards_ms (s : GameState) :
    (stateCards s : Multiset Card) = (s.tableau.flatten : Multiset Card)
      + (pairsCards s.pairs : Multiset Card) + (dominosCards s.dominos : Multiset Card) := by
  simp only [stateCards, ← Multiset.coe_add, add_assoc]

theorem snapCards_ms (p : Snapshot) :
    (snapCards p : Multiset Card) = (p.tableau.flatten : Multiset Card)
      + (pairsCards p.pairs : Multiset Card) + (dominosCards p.dominos : Multiset Card) := by
  simp only [snapCards, ← Multiset.coe_add, add_assoc]

theorem snapCards_snapshotState (s : GameState) :
    snapCards (snapshotState s) = stateCards s := rfl

theorem pairsCards_append (ps : List CardPair) (pr : CardPair) :
    pairsCards (ps ++ [pr]) = pairsCards ps ++ pairCards pr := by
  simp [pairsCards]

theorem dominosCards_append (ds : List Domino) (d : Domino) :
    dominosCards (ds ++ [d]) = dominosCards ds ++ d.cards := by
  simp [dominosCards]

theorem pairsCards_perm {ps qs : List CardPair} (h : List.Perm ps qs) :
    (pairsCards ps : Multiset Card) = (pairsCards qs : Multiset Card) :=
  Multiset.coe_eq_coe.mpr (h.flatMap_right pairCards)

theorem dominosCards_perm {ds es : List Domino} (h : List.Perm ds es) :
    (dominosCards ds : Multiset Card) = (dominosCards es : Multiset Card) :=
  Multiset.coe_eq_coe.mpr (h.flatMap_right Domino.cards)

theorem pairsCards_double_erase (ps : List CardPair) (i j : Nat) (pi pj : CardPair)
    (hij : i ≠ j) (hi : ps[i]? = some pi) (hj : ps[j]? = some pj) :
    (pairsCards ps : Multiset Card)
      = (pairsCards ((ps.eraseIdx (max i j)).eraseIdx (min i j)) : Multiset Card)
        + (pairCards pi : Multiset Card) + (pairCards pj : Multiset Card) := by
  rcases Nat.lt_or_ge i j with hlt | hge
  · have hperm := perm_double_erase_lt ps i j pi pj hlt hi hj
    rw [Nat.max_eq_right (Nat.le_of_lt hlt), Nat.min_eq_left (Nat.le_of_lt hlt)]
    rw [pairsCards_perm hperm]
    show (pairsCards (pi :: pj :: (ps.eraseIdx j).eraseIdx i) : Multiset Card) = _
    simp only [pairsCards, List.flatMap_cons, ← Multiset.coe_add]
    show (pairCards pi : Multiset Card) + ((pairCards pj : Multiset Card)
      + (pairsCards ((ps.eraseIdx j).eraseIdx i) : Multiset Card)) = _
    abel
  · have hlt : j < i := by omega
    have hperm := perm_double_erase_lt ps j i pj pi hlt hj hi
    rw [Nat.max_eq_left (Nat.le_of_lt hlt), Nat.min_eq_right (Nat.le_of_lt hlt)]
    rw [pairsCards_perm hperm]
    show (pairsCards (pj :: pi :: (ps.eraseIdx i).eraseIdx j) : Multiset Card) = _
    simp only [pairsCards, List.flatMap_cons, ← Multiset.coe_add]
    show (pairCards pj : Multiset Card) + ((pairCards pi : Multiset Card)
      + (pairsCards ((ps.eraseIdx i).eraseIdx j) : Multiset Card)) = _
    abel

theorem dominosCards_jsMapIdx (ds : List Domino) :
    ∀ (F : Nat → Domino → Domino), (∀ i d, (F i d).cards = d.cards) →
      dominosCards (jsMapIdx F ds) = dominosCards ds := by
  induction ds with
  | nil => intro F hF; rfl
  | cons d rest ih =>
    intro F hF
    rw [jsMapIdx_cons]
    show (F 0 d).cards ++ dominosCards (jsMapIdx (fun k a => F (k + 1) a) rest)
      = d.cards ++ dominosCards rest
    rw [hF 0 d, ih (fun k a => F (k + 1) a) (fun i a => hF (i + 1) a)]

theorem dominosCards_map (ds : List Domino) (F : Domino → Domino)
    (hF : ∀ d, (F d).cards = d.cards) : dominosCards (ds.map F) = dominosCards ds := by
  induction ds with
  | nil => rfl
  | cons d rest ih =>
    show (F d).cards ++ dominosCards (rest.map F) = d.cards ++ dominosCards rest
    rw [hF d, ih]

theorem dominosCards_markInChain (ds : List Domino) (idx : Nat) :
    dominosCards (markInChain ds idx) = dominosCards ds := by
  apply dominosCards_jsMapIdx
  intro i d
  by_cases h : i = idx
  · simp [h]
  · simp [h]

/-! ## Chain well-formedness lemmas -/

theorem chainWF_singleton (d : Domino) (idx : Nat) : chainWF [orientAsNew d idx] := by
  refine ⟨by simp, ?_, List.chain'_singleton _⟩
  intro x hx
  simp only [List.mem_singleton] at hx
  subst hx
  simp [orientAsNew]

/-- Unfold the end labels of a well-formed chain into head/last display
values. -/
theorem ends_spec (c : DominoChain) (ends : String × String) (hC : chainWF c)
    (hE : getChainEndValues c = some ends) :
    ∃ fst lst, c.head? = some fst ∧ c.getLast? = some lst ∧
      fst.displayValue1 = some ends.1 ∧ lst.displayValue2 = some ends.2 := by
  obtain ⟨hne, hsome, hchain⟩ := hC
  unfold getChainEndValues at hE
  cases hf : c.head? with
  | none => rw [hf] at hE; simp at hE
  | some fst =>
    cases hl : c.getLast? with
    | none => rw [hf, hl] at hE; simp at hE
    | some lst =>
      rw [hf, hl] at hE
      simp only [Option.some_inj] at hE
      have hfmem : fst ∈ c := by
        cases c with
        | nil => simp at hf
        | cons a t =>
          simp only [List.head?_cons, Option.some_inj] at hf
          exact hf ▸ List.mem_cons_self a t
      have hlmem : lst ∈ c := by
        have h' := hl
        rw [List.getLast?_eq_getLast c hne] at h'
        have hx := Option.some_inj.mp h'
        rw [← hx]
        exact List.getLast_mem hne
      obtain ⟨v1, hv1⟩ := Option.isSome_iff_exists.mp (hsome fst hfmem).1
      obtain ⟨v2, hv2⟩ := Option.isSome_iff_exists.mp (hsome lst hlmem).2
      refine ⟨fst, lst, rfl, rfl, ?_, ?_⟩
      · rw [hv1]
        rw [← hE]
        simp [hv1]
      · rw [hv2]
        rw [← hE]
        simp [hv2]

theorem chainWF_append_end (c : DominoChain) (ends : String × String) (oriented : Domino)
    (hC : chainWF c) (hE : getChainEndValues c = some ends)
    (h1 : oriented.displayValue1 = some ends.2) (h2 : oriented.displayValue2.isSome = true) :
    chainWF (c ++ [oriented]) := by
  obtain ⟨fst, lst, hf, hl, hd1, hd2⟩ := ends_spec c ends hC hE
  obtain ⟨hne, hsome, hchain⟩ := hC
  refine ⟨by simp, ?_, ?_⟩
  · intro x hx
    rcases List.mem_append.mp hx with hx | hx
    · exact hsome x hx
    · simp only [List.mem_singleton] at hx
      subst hx
      exact ⟨by rw [h1]; rfl, h2⟩
  · rw [List.chain'_append]
    refine ⟨hchain, List.chain'_singleton _, ?_⟩
    intro x hx y hy
    rw [hl] at hx
    simp only [Option.mem_def, Option.some_inj] at hx
    simp only [List.head?_cons, Option.mem_def, Option.some_inj] at hy
    subst hx
    subst hy
    show lst.displayValue2 = oriented.displayValue1
    rw [hd2, h1]

theorem chainWF_cons_start (c : DominoChain) (ends : String × String) (oriented : Domino)
    (hC : chainWF c) (hE : getChainEndValues c = some ends)
    (h1 : oriented.displayValue2 = some ends.1) (h2 : oriented.displayValue1.isSome = true) :
    chainWF (oriented :: c) := by
  obtain ⟨fst, lst, hf, hl, hd1, hd2⟩ := ends_spec c ends hC hE
  obtain ⟨hne, hsome, hchain⟩ := hC
  refine ⟨by simp, ?_, ?_⟩
  · intro x hx
    rcases List.mem_cons.mp hx with hx | hx
    · subst hx
      exact ⟨h2, by rw [h1]; rfl⟩
    · exact hsome x hx
  · rw [List.chain'_cons']
    refine ⟨?_, hchain⟩
    intro y hy
    rw [hf] at hy
    simp only [Option.mem_def, Option.some_inj] at hy
    subst hy
    show oriented.displayValue2 = fst.displayValue1
    rw [h1, hd1]

/-- The domino-field swap applied by `reverseChain`. -/
theorem chainWF_reverseChain (c : DominoChain) (hC : chainWF c) : chainWF (reverseChain c) := by
  obtain ⟨hne, hsome, hchain⟩ := hC
  refine ⟨?_, ?_, ?_⟩
  · simp [reverseChain]
    intro h
    exact hne h
  · intro x hx
    simp only [reverseChain, List.mem_map, List.mem_reverse] at hx
    obtain ⟨d, hd, hdx⟩ := hx
    subst hdx
    exact ⟨(hsome d hd).2, (hsome d hd).1⟩
  · unfold reverseChain
    rw [List.chain'_map, List.chain'_reverse]
    apply hchain.imp
    intro a b h
    exact h.symm

theorem getChainEndValues_reverseChain (c : DominoChain) (ends : String × String)
    (hC : chainWF c) (hE : getChainEndValues c = some ends) :
    getChainEndValues (reverseChain c) = some (ends.2, ends.1) := by
  obtain ⟨fst, lst, hf, hl, hd1, hd2⟩ := ends_spec c ends hC hE
  unfold getChainEndValues reverseChain
  rw [List.head?_map, List.head?_reverse, hl, List.getLast?_map, List.getLast?_reverse, hf]
  simp only [Option.map_some']
  show some (lst.displayValue2.getD _, fst.displayValue1.getD _) = _
  rw [hd1, hd2]
  rfl

theorem chainWF_append_chains (c1 c2 : DominoChain) (e1 e2 : String × String)
    (h1 : chainWF c1) (h2 : chainWF c2)
    (hE1 : getChainEndValues c1 = some e1) (hE2 : getChainEndValues c2 = some e2)
    (hlink : e1.2 = e2.1) : chainWF (c1 ++ c2) := by
  obtain ⟨f1, l1, hf1, hl1, hd11, hd12⟩ := ends_spec c1 e1 h1 hE1
  obtain ⟨f2, l2, hf2, hl2, hd21, hd22⟩ := ends_spec c2 e2 h2 hE2
  obtain ⟨hne1, hsome1, hchain1⟩ := h1
  obtain ⟨hne2, hsome2, hchain2⟩ := h2
  refine ⟨by simp [hne1], ?_, ?_⟩
  · intro x hx
    rcases List.mem_append.mp hx with hx | hx
    · exact hsome1 x hx
    · exact hsome2 x hx
  · rw [List.chain'_append]
    refine ⟨hchain1, hchain2, ?_⟩
    intro x hx y hy
    rw [hl1] at hx
    rw [hf2] at hy
    simp only [Option.mem_def, Option.some_inj] at hx hy
    subst hx
    subst hy
    show l1.displayValue2 = f2.displayValue1
    rw [hd12, hd21, hlink]

theorem chainWF_joined (c1 c2 : DominoChain) (e1 e2 : String × String) (joined : DominoChain)
    (h1 : chainWF c1) (h2 : chainWF c2)
    (hE1 : getChainEndValues c1 = some e1) (hE2 : getChainEndValues c2 = some e2)
    (hJ : joinedChain? c1 c2 e1 e2 = some joined) : chainWF joined := by
  have h2r := chainWF_reverseChain c2 h2
  have hE2r := getChainEndValues_reverseChain c2 e2 h2 hE2
  unfold joinedChain? at hJ
  split_ifs at hJ with ha hb hc hd
  · rw [Option.some_inj] at hJ
    subst hJ
    exact chainWF_append_chains c1 c2 e1 e2 h1 h2 hE1 hE2 ha
  · rw [Option.some_inj] at hJ
    subst hJ
    exact chainWF_append_chains c1 (reverseChain c2) e1 (e2.2, e2.1) h1 h2r hE1 hE2r hb
  · rw [Option.some_inj] at hJ
    subst hJ
    exact chainWF_append_chains c2 c1 e2 e1 h2 h1 hE2 hE1 hc.symm
  · rw [Option.some_inj] at hJ
    subst hJ
    exact chainWF_append_chains (reverseChain c2) c1 (e2.2, e2.1) e1 h2r h1 hE2r hE1 hd.symm

/-! ## Invariant preservation -/

theorem histInv_withHistory (deck : List Card) (s : GameState) (h : StateInv deck s) :
    ∀ p ∈ withHistory s,
      (snapCards p : Multiset Card) = (deck : Multiset Card)
      ∧ (∀ c ∈ p.chains, chainWF c)
      ∧ (∀ pr ∈ p.pairs, pr.1.value + pr.2.value = 14) := by
  intro p hp
  rcases withHistory_mem s p hp with hmem | heq
  · exact h.2.2.2 p hmem
  · subst heq
    rw [snapCards_snapshotState]
    exact ⟨h.1, h.2.1, h.2.2.1⟩

theorem stateInv_init (deck : List Card) : StateInv deck (createInitialState deck) := by
  refine ⟨?_, ?_, ?_, ?_⟩
  · rw [stateCards_ms]
    show ((dealTableau deck 8).flatten : Multiset Card) + ↑(pairsCards []) + ↑(dominosCards [])
      = (deck : Multiset Card)
    rw [dealTableau_flatten]
    show (deck : Multiset Card) + ↑([] : List Card) + ↑([] : List Card) = (deck : Multiset Card)
    simp
  · intro c hc
    simp [createInitialState] at hc
  · intro pr hpr
    simp [createInitialState] at hpr
  · intro p hp
    simp [createInitialState] at hp

theorem stateInv_moveCard (deck : List Card) (s : GameState) (i j : Nat)
    (h : StateInv deck s) : StateInv deck (moveCard s i j) := by
  rcases moveCard_cases s i j with heq | ⟨fc, tc, card, hij, hfc, htc, hcard, heq⟩
  · rw [heq]; exact h
  · obtain ⟨hcards, hchains, hpairs, hhist⟩ := h
    rw [heq]
    refine ⟨?_, hchains, hpairs, ?_⟩
    · rw [stateCards_ms]
      dsimp only
      have h2u : ((jsMapIdx (fun index column =>
            if index = i then column.dropLast
            else if index = j then column ++ [card]
            else column) s.tableau).flatten : Multiset Card)
            + (fc : Multiset Card) + (tc : Multiset Card)
          = (s.tableau.flatten : Multiset Card) + (fc.dropLast : Multiset Card)
            + ((tc ++ [card]) : Multiset Card) :=
        flatten_two_update List.dropLast (fun column => column ++ [card]) s.tableau i j
          fc tc hij hfc htc
      have e1 : (fc : Multiset Card) = (fc.dropLast : Multiset Card) + {card} :=
        coe_of_getLast? hcard
      have e2 : ((tc ++ [card]) : Multiset Card) = (tc : Multiset Card) + {card} := by
        rw [← Multiset.coe_add]
        rfl
      have key : ((jsMapIdx (fun index column =>
            if index = i then column.dropLast
            else if index = j then column ++ [card]
            else column) s.tableau).flatten : Multiset Card)
            + ((fc.dropLast : Multiset Card) + {card} + (tc : Multiset Card))
          = (s.tableau.flatten : Multiset Card)
            + ((fc.dropLast : Multiset Card) + {card} + (tc : Multiset Card)) := by
        calc ((jsMapIdx (fun index column =>
                if index = i then column.dropLast
                else if index = j then column ++ [card]
                else column) s.tableau).flatten : Multiset Card)
                + ((fc.dropLast : Multiset Card) + {card} + (tc : Multiset Card))
            = ((jsMapIdx (fun index column =>
                if index = i then column.dropLast
                else if index = j then column ++ [card]
                else column) s.tableau).flatten : Multiset Card)
                + (fc : Multiset Card) + (tc : Multiset Card) := by rw [e1]; abel
          _ = (s.tableau.flatten : Multiset Card) + (fc.dropLast : Multiset Card)
                + ((tc ++ [card]) : Multiset Card) := h2u
          _ = (s.tableau.flatten : Multiset Card)
                + ((fc.dropLast : Multiset Card) + {card} + (tc : Multiset Card)) := by
              rw [e2]; abel
      have hAB := add_right_cancel key
      rw [hAB]
      rw [stateCards_ms] at hcards
      exact hcards
    · exact histInv_withHistory deck s ⟨hcards, hchains, hpairs, hhist⟩

theorem stateInv_createPairFromTableau (deck : List Card) (s : GameState) (i j : Nat)
    (h : StateInv deck s) : StateInv deck (createPairFromTableau s i j) := by
  rcases createPairFromTableau_cases s i j with heq |
    ⟨fc, tc, c1, c2, hij, hcap, hfc, htc, hc1, hc2, hpair, heq⟩
  · rw [heq]; exact h
  · obtain ⟨hcards, hchains, hpairs, hhist⟩ := h
    rw [heq]
    refine ⟨?_, hchains, ?_, ?_⟩
    · rw [stateCards_ms]
      dsimp only
      have h2u : ((jsMapIdx (fun index column =>
            if index = i then column.dropLast
            else if index = j then column.dropLast
            else column) s.tableau).flatten : Multiset Card)
            + (fc : Multiset Card) + (tc : Multiset Card)
          = (s.tableau.flatten : Multiset Card) + (fc.dropLast : Multiset Card)
            + (tc.dropLast : Multiset Card) :=
        flatten_two_update List.dropLast List.dropLast s.tableau i j fc tc hij hfc htc
      have e1 : (fc : Multiset Card) = (fc.dropLast : Multiset Card) + {c1} :=
        coe_of_getLast? hc1
      have e2 : (tc : Multiset Card) = (tc.dropLast : Multiset Card) + {c2} :=
        coe_of_getLast? hc2
      have epr : (pairCards (if c1.isRed then (c1, c2) else (c2, c1)) : Multiset Card)
          = {c1} + {c2} := by
        by_cases hred : c1.isRed = true
        · rw [if_pos hred]
          show (([c1, c2] : List Card) : Multiset Card) = {c1} + {c2}
          rfl
        · rw [if_neg hred]
          show (([c2, c1] : List Card) : Multiset Card) = {c1} + {c2}
          have : (([c2, c1] : List Card) : Multiset Card) = {c2} + {c1} := rfl
          rw [this]
          abel
      have key : ((jsMapIdx (fun index column =>
            if index = i then column.dropLast
            else if index = j then column.dropLast
            else column) s.tableau).flatten : Multiset Card) + {c1} + {c2}
            + ((fc.dropLast : Multiset Card) + (tc.dropLast : Multiset Card))
          = (s.tableau.flatten : Multiset Card)
            + ((fc.dropLast : Multiset Card) + (tc.dropLast : Multiset Card)) := by
        calc ((jsMapIdx (fun index column =>
                if index = i then column.dropLast
                else if index = j then column.dropLast
                else column) s.tableau).flatten : Multiset Card) + {c1} + {c2}
                + ((fc.dropLast : Multiset Card) + (tc.dropLast : Multiset Card))
            = ((jsMapIdx (fun index column =>
                if index = i then column.dropLast
                else if index = j then column.dropLast
                else column) s.tableau).flatten : Multiset Card)
                + (fc : Multiset Card) + (tc : Multiset Card) := by rw [e1, e2]; abel
          _ = (s.tableau.flatten : Multiset Card) + (fc.dropLast : Multiset Card)
                + (tc.dropLast : Multiset Card) := h2u
          _ = (s.tableau.flatten : Multiset Card)
                + ((fc.dropLast : Multiset Card) + (tc.dropLast : Multiset Card)) := by abel
      have hAB := add_right_cancel key
      rw [stateCards_ms] at hcards
      rw [pairsCards_append, ← Multiset.coe_add, epr]
      calc ((jsMapIdx (fun index column =>
              if index = i then column.dropLast
              else if index = j then column.dropLast
              else column) s.tableau).flatten : Multiset Card)
              + ((pairsCards s.pairs : Multiset Card) + ({c1} + {c2}))
              + (dominosCards s.dominos : Multiset Card)
          = ((jsMapIdx (fun index column =>
              if index = i then column.dropLast
              else if index = j then column.dropLast
              else column) s.tableau).flatten : Multiset Card) + {c1} + {c2}
              + (pairsCards s.pairs : Multiset Card)
              + (dominosCards s.dominos : Multiset Card) := by abel
        _ = (s.tableau.flatten : Multiset Card) + (pairsCards s.pairs : Multiset Card)
              + (dominosCards s.dominos : Multiset Card) := by rw [hAB]
        _ = (deck : Multiset Card) := hcards
    · intro pr hpr
      dsimp only at hpr
      rcases List.mem_append.mp hpr with hpr | hpr
      · exact hpairs pr hpr
      · simp only [List.mem_singleton] at hpr
        subst hpr
        have hsum : c1.value + c2.value = 14 := by
          have := hpair
          unfold canPair at this
          rcases Bool.and_eq_true_iff.mp this with ⟨-, h14⟩
          simpa using h14
        by_cases hred : c1.isRed = true
        · rw [if_pos hred]
          exact hsum
        · rw [if_neg hred]
          show c2.value + c1.value = 14
          omega
    · exact histInv_withHistory deck s ⟨hcards, hchains, hpairs, hhist⟩

theorem stateInv_createDominoFromPairs (deck : List Card) (s : GameState) (i j : Nat)
    (newId : String) (h : StateInv deck s) : StateInv deck (createDominoFromPairs s i j newId) := by
  rcases createDominoFromPairs_cases s i j newId with heq |
    ⟨p1, p2, op1, op2, hij, hp1, hp2, hdom, hop, heq⟩
  · rw [heq]; exact h
  · obtain ⟨hcards, hchains, hpairs, hhist⟩ := h
    rw [heq]
    refine ⟨?_, hchains, ?_, ?_⟩
    · rw [stateCards_ms]
      dsimp only
      rw [stateCards_ms] at hcards
      rw [pairsCards_double_erase s.pairs i j p1 p2 hij hp1 hp2] at hcards
      rw [dominosCards_append, ← Multiset.coe_add]
      have ecards : (([op1.1, op1.2, op2.1, op2.2] : List Card) : Multiset Card)
          = (pairCards p1 : Multiset Card) + (pairCards p2 : Multiset Card) := by
        rcases hop with ⟨h1, h2⟩ | ⟨h1, h2⟩ <;> rw [h1, h2]
        · rfl
        · have e : (([p2.1, p2.2, p1.1, p1.2] : List Card) : Multiset Card)
              = (pairCards p2 : Multiset Card) + (pairCards p1 : Multiset Card) := rfl
          rw [e]
          abel
      calc ((s.tableau.flatten : Multiset Card)
              + (pairsCards ((s.pairs.eraseIdx (max i j)).eraseIdx (min i j)) : Multiset Card)
              + ((dominosCards s.dominos : Multiset Card)
                + (([op1.1, op1.2, op2.1, op2.2] : List Card) : Multiset Card)))
          = (s.tableau.flatten : Multiset Card)
              + ((pairsCards ((s.pairs.eraseIdx (max i j)).eraseIdx (min i j)) : Multiset Card)
                + (pairCards p1 : Multiset Card) + (pairCards p2 : Multiset Card))
              + (dominosCards s.dominos : Multiset Card) := by rw [ecards]; abel
        _ = (deck : Multiset Card) := hcards
    · intro pr hpr
      dsimp only at hpr
      exact hpairs pr (mem_of_eraseIdx (mem_of_eraseIdx hpr))
    · exact histInv_withHistory deck s ⟨hcards, hchains, hpairs, hhist⟩

theorem mem_of_getElem?' {l : List α} {i : Nat} {x : α} (h : l[i]? = some x) : x ∈ l := by
  obtain ⟨hi, rfl⟩ := List.getElem?_eq_some.mp h
  exact List.getElem_mem hi

theorem mem_of_getLast?' {l : List α} {x : α} (h : l.getLast? = some x) : x ∈ l := by
  induction l with
  | nil => simp at h
  | cons a t ih =>
    cases t with
    | nil =>
      simp only [List.getLast?_singleton, Option.some_inj] at h
      exact h ▸ List.mem_cons_self a []
    | cons b t' =>
      rw [List.getLast?_cons_cons] at h
      exact List.mem_cons_of_mem a (ih h)

theorem stateInv_addDominoToChain (deck : List Card) (s : GameState) (idx : Nat)
    (ci? : Option Nat) (h : StateInv deck s) : StateInv deck (addDominoToChain s idx ci?) := by
  rcases addDominoToChain_cases s idx ci? with heq | ⟨domino, hdom, hin, hcase⟩
  · rw [heq]; exact h
  · obtain ⟨hcards, hchains, hpairs, hhist⟩ := h
    have hcardsInv : (stateCards { s with
        dominos := markInChain s.dominos idx } : Multiset Card) = (deck : Multiset Card) := by
      rw [stateCards_ms]
      dsimp only
      rw [dominosCards_markInChain]
      rw [stateCards_ms] at hcards
      exact hcards
    rcases hcase with heq | ⟨ci, chain, ends, oriented, hchain, hends, hocards, hcase2⟩
    · rw [heq]
      refine ⟨?_, ?_, hpairs, ?_⟩
      · rw [stateCards_ms]
        dsimp only
        rw [dominosCards_markInChain]
        rw [stateCards_ms] at hcards
        exact hcards
      · intro c hc
        dsimp only at hc
        rcases List.mem_append.mp hc with hc | hc
        · exact hchains c hc
        · simp only [List.mem_singleton] at hc
          subst hc
          exact chainWF_singleton domino idx
      · exact histInv_withHistory deck s ⟨hcards, hchains, hpairs, hhist⟩
    · have hcwf : chainWF chain := hchains chain (mem_of_getElem?' hchain)
      rcases hcase2 with ⟨ho1, ho2, heq⟩ | ⟨ho1, ho2, heq⟩
      · rw [heq]
        refine ⟨?_, ?_, hpairs, ?_⟩
        · rw [stateCards_ms]
          dsimp only
          rw [dominosCards_markInChain]
          rw [stateCards_ms] at hcards
          exact hcards
        · intro c hc
          dsimp only at hc
          rcases mem_of_set _ _ _ _ hc with hc | hc
          · subst hc
            exact chainWF_append_end chain ends oriented hcwf hends ho1 ho2
          · exact hchains c hc
        · exact histInv_withHistory deck s ⟨hcards, hchains, hpairs, hhist⟩
      · rw [heq]
        refine ⟨?_, ?_, hpairs, ?_⟩
        · rw [stateCards_ms]
          dsimp only
          rw [dominosCards_markInChain]
          rw [stateCards_ms] at hcards
          exact hcards
        · intro c hc
          dsimp only at hc
          rcases mem_of_set _ _ _ _ hc with hc | hc
          · subst hc
            exact chainWF_cons_start chain ends oriented hcwf hends ho1 ho2
          · exact hchains c hc
        · exact histInv_withHistory deck s ⟨hcards, hchains, hpairs, hhist⟩

theorem stateInv_joinChains (deck : List Card) (s : GameState) (i j : Nat)
    (h : StateInv deck s) : StateInv deck (joinChains s i j) := by
  rcases joinChains_cases s i j with heq | ⟨c1, c2, e1, e2, joined, hij, hc1, hc2, he1, he2, hJ, heq⟩
  · rw [heq]; exact h
  · obtain ⟨hcards, hchains, hpairs, hhist⟩ := h
    rw [heq]
    refine ⟨?_, ?_, hpairs, ?_⟩
    · rw [stateCards_ms]
      dsimp only
      rw [stateCards_ms] at hcards
      exact hcards
    · intro c hc
      dsimp only at hc
      rcases List.mem_append.mp hc with hc | hc
      · exact hchains c (mem_of_eraseIdx (mem_of_eraseIdx hc))
      · simp only [List.mem_singleton] at hc
        subst hc
        exact chainWF_joined c1 c2 e1 e2 c
          (hchains c1 (mem_of_getElem?' hc1)) (hchains c2 (mem_of_getElem?' hc2)) he1 he2 hJ
    · exact histInv_withHistory deck s ⟨hcards, hchains, hpairs, hhist⟩

theorem stateInv_removeLastFromChain (deck : List Card) (s : GameState) (ci : Nat)
    (h : StateInv deck s) : StateInv deck (removeLastFromChain s ci) := by
  rcases removeLastFromChain_cases s ci with heq | ⟨chain, removed, hchain, hrem, heq⟩
  · rw [heq]; exact h
  · obtain ⟨hcards, hchains, hpairs, hhist⟩ := h
    rw [heq]
    refine ⟨?_, ?_, hpairs, ?_⟩
    · rw [stateCards_ms]
      dsimp only
      rw [dominosCards_map]
      · rw [stateCards_ms] at hcards
        exact hcards
      · intro d
        by_cases hd : d.id = removed.id
        · simp [hd]
        · simp [hd]
    · intro c hc
      dsimp only at hc
      split at hc
      · exact hchains c (mem_of_eraseIdx hc)
      · next hne =>
        rcases mem_of_set _ _ _ _ hc with hc | hc
        · subst hc
          obtain ⟨hne', hsome, hch⟩ := hchains chain (mem_of_getElem?' hchain)
          refine ⟨?_, ?_, hch.init⟩
          · intro hnil
            rw [hnil] at hne
            simp at hne
          · intro d hd
            exact hsome d ((List.dropLast_sublist chain).subset hd)
        · exact hchains c hc
    · exact histInv_withHistory deck s ⟨hcards, hchains, hpairs, hhist⟩

theorem stateInv_clearChain (deck : List Card) (s : GameState) (ci? : Option Nat)
    (h : StateInv deck s) : StateInv deck (clearChain s ci?) := by
  rcases clearChain_cases s ci? with heq | heq
  · rw [heq]; exact h
  · obtain ⟨hcards, hchains, hpairs, hhist⟩ := h
    rw [heq]
    refine ⟨?_, ?_, hpairs, ?_⟩
    · rw [stateCards_ms]
      dsimp only
      rw [dominosCards_map]
      · rw [stateCards_ms] at hcards
        exact hcards
      · intro d
        split
        · rfl
        · rfl
    · intro c hc
      dsimp only at hc
      cases ci? with
      | none => simp at hc
      | some i => exact hchains c (mem_of_eraseIdx hc)
    · exact histInv_withHistory deck s ⟨hcards, hchains, hpairs, hhist⟩

theorem stateInv_reorderPairs (deck : List Card) (s : GameState) (i j : Nat)
    (h : StateInv deck s) : StateInv deck (reorderPairs s i j) := by
  rcases reorderPairs_cases s i j with heq | ⟨hij, hi, hj, heq⟩
  · rw [heq]; exact h
  · obtain ⟨hcards, hchains, hpairs, hhist⟩ := h
    have hperm := jsReorder_perm s.pairs i j hi hj
    rw [heq]
    refine ⟨?_, hchains, ?_, ?_⟩
    · rw [stateCards_ms]
      dsimp only
      rw [pairsCards_perm hperm]
      rw [stateCards_ms] at hcards
      exact hcards
    · intro pr hpr
      dsimp only at hpr
      exact hpairs pr (hperm.mem_iff.mp hpr)
    · exact histInv_withHistory deck s ⟨hcards, hchains, hpairs, hhist⟩

theorem stateInv_reorderDominos (deck : List Card) (s : GameState) (i j : Nat)
    (h : StateInv deck s) : StateInv deck (reorderDominos s i j) := by
  rcases reorderDominos_cases s i j with heq | ⟨hij, hi, hj, heq⟩
  · rw [heq]; exact h
  · obtain ⟨hcards, hchains, hpairs, hhist⟩ := h
    have hperm := jsReorder_perm s.dominos i j hi hj
    rw [heq]
    refine ⟨?_, hchains, hpairs, ?_⟩
    · rw [stateCards_ms]
      dsimp only
      rw [dominosCards_perm hperm]
      rw [stateCards_ms] at hcards
      exact hcards
    · exact histInv_withHistory deck s ⟨hcards, hchains, hpairs, hhist⟩

theorem stateInv_reorderChains (deck : List Card) (s : GameState) (i j : Nat)
    (h : StateInv deck s) : StateInv deck (reorderChains s i j) := by
  rcases reorderChains_cases s i j with heq | ⟨hij, hi, hj, heq⟩
  · rw [heq]; exact h
  · obtain ⟨hcards, hchains, hpairs, hhist⟩ := h
    have hperm := jsReorder_perm s.chains i j hi hj
    rw [heq]
    refine ⟨?_, ?_, hpairs, ?_⟩
    · rw [stateCards_ms]
      dsimp only
      rw [stateCards_ms] at hcards
      exact hcards
    · intro c hc
      dsimp only at hc
      exact hchains c (hperm.mem_iff.mp hc)
    · exact histInv_withHistory deck s ⟨hcards, hchains, hpairs, hhist⟩

theorem stateInv_undoState (deck : List Card) (s : GameState)
    (h : StateInv deck s) : StateInv deck (undoState s) := by
  obtain ⟨hcards, hchains, hpairs, hhist⟩ := h
  unfold undoState
  cases hlast : s.history.getLast? with
  | none => exact ⟨hcards, hchains, hpairs, hhist⟩
  | some previous =>
    obtain ⟨hpc, hpch, hpp⟩ := hhist previous (mem_of_getLast?' hlast)
    refine ⟨?_, ?_, ?_, ?_⟩
    · rw [stateCards_ms]
      dsimp only
      rw [snapCards_ms] at hpc
      exact hpc
    · intro c hc
      dsimp only at hc
      exact hpch c hc
    · intro pr hpr
      dsimp only at hpr
      exact hpp pr hpr
    · intro p hp
      dsimp only at hp
      exact hhist p ((List.dropLast_sublist s.history).subset hp)

/-- Every reachable state satisfies the master invariant. -/
theorem stateInv_reachable (deck : List Card) (s : GameState) (h : Reachable deck s) :
    StateInv deck s := by
  induction h with
  | init => exact stateInv_init deck
  | move i j hr ih => exact stateInv_moveCard deck _ i j ih
  | pair i j hr ih => exact stateInv_createPairFromTableau deck _ i j ih
  | dom i j newId hr ih => exact stateInv_createDominoFromPairs deck _ i j newId ih
  | add i ci? hr ih => exact stateInv_addDominoToChain deck _ i ci? ih
  | join i j hr ih => exact stateInv_joinChains deck _ i j ih
  | removeLast i hr ih => exact stateInv_removeLastFromChain deck _ i ih
  | clear ci? hr ih => exact stateInv_clearChain deck _ ci? ih
  | rpairs i j hr ih => exact stateInv_reorderPairs deck _ i j ih
  | rdominos i j hr ih => exact stateInv_reorderDominos deck _ i j ih
  | rchains i j hr ih => exact stateInv_reorderChains deck _ i j ih
  | undo hr ih => exact stateInv_undoState deck _ ih

/-! ## Claim C1: card conservation -/

/-- C1.  For every state reachable from `createInitialState` on a full
52-card deck by any sequence of transition functions, the cards in the
tableau columns, the pairs pool, and the domino list (which includes every
domino in a chain, flagged `inChain`) are exactly the original 52-card set:
a permutation of `createDeck`, with no duplicates and no losses. -/
theorem spec_C1_card_conservation (deck : List Card) (s : GameState)
    (hdeck : List.Perm deck createDeck) (h : Reachable deck s) :
    List.Perm (stateCards s) createDeck ∧ (stateCards s).Nodup := by
  have hinv := stateInv_reachable deck s h
  have hperm : List.Perm (stateCards s) deck := Multiset.coe_eq_coe.mp hinv.1
  have hp2 := hperm.trans hdeck
  have hnodup : createDeck.Nodup := by decide
  exact ⟨hp2, hp2.nodup_iff.mpr hnodup⟩

/-- Witness for C1 at a concrete input: the freshly dealt canonical game
accounts for exactly the 52 cards. -/
theorem spec_C1_card_conservation_witness :
    List.Perm (stateCards (createInitialState createDeck)) createDeck
    ∧ (stateCards (createInitialState createDeck)).Nodup :=
  spec_C1_card_conservation createDeck _ (List.Perm.refl _) Reachable.init

/-! ## Claim C4: the chain-edge invariant -/

/-- C4.  In every reachable state, adjacent dominos in every chain satisfy
`d_i.displayValue2 = d_{i+1}.displayValue1`; moreover `reverseChain`
preserves this adjacency property of any chain. -/
theorem spec_C4_chain_edges (deck : List Card) (s : GameState) (h : Reachable deck s) :
    (∀ c ∈ s.chains, List.Chain' dominoEdge c)
    ∧ ∀ c : DominoChain, List.Chain' dominoEdge c →
        List.Chain' dominoEdge (reverseChain c) := by
  have hinv := stateInv_reachable deck s h
  refine ⟨fun c hc => (hinv.2.1 c hc).2.2, ?_⟩
  intro c hc
  unfold reverseChain
  rw [List.chain'_map, List.chain'_reverse]
  apply hc.imp
  intro a b hab
  exact hab.symm

/-! ## Claim C2: domino label normalization -/

/-- Every deck card's (rank, value) pair is a `RANK_VALUES` entry. -/
theorem deck_rank_value : ∀ a ∈ createDeck, (a.rank, a.value) ∈ RANK_VALUES := by decide

/-- Rank-level label computation: a sum-to-14 combination of rank values
produces the canonical label of its minimum, and `getNumericValue` recovers
that minimum. -/
theorem rank_label_canon :
    ∀ p ∈ RANK_VALUES, ∀ q ∈ RANK_VALUES, p.2 + q.2 = 14 →
      (if p.2 ≤ q.2 then p.1 ++ "-" ++ q.1 else q.1 ++ "-" ++ p.1)
        = canonLabel (min p.2 q.2)
      ∧ getNumericValue (canonLabel (min p.2 q.2)) = some (min p.2 q.2) := by decide

/-- Card-level label computation for deck cards. -/
theorem pairLabel_canon (p : CardPair) (h1 : p.1 ∈ createDeck) (h2 : p.2 ∈ createDeck)
    (hsum : p.1.value + p.2.value = 14) :
    getPairLabel p = canonLabel (getPairLowerValue p)
    ∧ getNumericValue (getPairLabel p) = some (getPairLowerValue p) := by
  have ha := deck_rank_value p.1 h1
  have hb := deck_rank_value p.2 h2
  have key := rank_label_canon (p.1.rank, p.1.value) ha (p.2.rank, p.2.value) hb hsum
  have hl : getPairLabel p = canonLabel (getPairLowerValue p) := key.1
  exact ⟨hl, by rw [hl]; exact key.2⟩

/-- `normalizeDominoValues` is insensitive to argument order whenever both
labels have numeric values and equal numbers force equal labels; moreover
the label with the smaller number lands in the first slot. -/
theorem normalizeDominoValues_comm (l1 l2 : String) (n1 n2 : Nat)
    (h1 : getNumericValue l1 = some n1) (h2 : getNumericValue l2 = some n2)
    (heqn : n1 = n2 → l1 = l2) :
    normalizeDominoValues l2 l1 = normalizeDominoValues l1 l2
    ∧ (normalizeDominoValues l1 l2).1 = (if n1 ≤ n2 then l1 else l2) := by
  unfold normalizeDominoValues
  rw [h1, h2]
  by_cases hle : n1 ≤ n2
  · by_cases hge : n2 ≤ n1
    · have hn : n1 = n2 := Nat.le_antisymm hle hge
      have hl := heqn hn
      subst hl
      simp [hle, hge]
    · simp [hle, hge]
  · have hge : n2 ≤ n1 := by omega
    simp [hle, hge]

/-- Cards held in the pair pool of a reachable state are deck cards. -/
theorem pair_mem_deck (deck : List Card) (s : GameState)
    (hdeck : List.Perm deck createDeck) (hinv : StateInv deck s)
    (pr : CardPair) (hpr : pr ∈ s.pairs) : pr.1 ∈ createDeck ∧ pr.2 ∈ createDeck := by
  have hperm : List.Perm (stateCards s) deck := Multiset.coe_eq_coe.mp hinv.1
  have hmem : ∀ c ∈ pairCards pr, c ∈ createDeck := by
    intro c hc
    have h1 : c ∈ pairsCards s.pairs := List.mem_flatMap.mpr ⟨pr, hpr, hc⟩
    have h2 : c ∈ stateCards s := by
      unfold stateCards
      exact List.mem_append.mpr (Or.inl (List.mem_append.mpr (Or.inr h1)))
    exact hdeck.mem_iff.mp (hperm.mem_iff.mp h2)
  exact ⟨hmem pr.1 (by simp [pairCards]), hmem pr.2 (by simp [pairCards])⟩

/-- C2.  For any two pairs in the pool of a reachable state that can form a
domino, `createDominoFromPairs` assigns the same `value1`/`value2` to the
created domino regardless of argument order, and `value1` is the label of
the pair with the smaller minimum rank value. -/
theorem spec_C2_domino_normalization (deck : List Card) (s : GameState)
    (hdeck : List.Perm deck createDeck) (hreach : Reachable deck s)
    (i j : Nat) (p1 p2 : CardPair) (id1 id2 : String)
    (hij : i ≠ j) (hp1 : s.pairs[i]? = some p1) (hp2 : s.pairs[j]? = some p2)
    (hdom : canFormDomino (some p1) (some p2) = true) :
    ∃ v1 v2,
      ((createDominoFromPairs s i j id1).dominos.getLast?).map
          (fun d => (d.value1, d.value2)) = some (v1, v2)
      ∧ ((createDominoFromPairs s j i id2).dominos.getLast?).map
          (fun d => (d.value1, d.value2)) = some (v1, v2)
      ∧ v1 = (if getPairLowerValue p1 ≤ getPairLowerValue p2 then getPairLabel p1
              else getPairLabel p2) := by
  have hinv := stateInv_reachable deck s hreach
  have hmem1 := pair_mem_deck deck s hdeck hinv p1 (mem_of_getElem?' hp1)
  have hmem2 := pair_mem_deck deck s hdeck hinv p2 (mem_of_getElem?' hp2)
  have hsum1 := hinv.2.2.1 p1 (mem_of_getElem?' hp1)
  have hsum2 := hinv.2.2.1 p2 (mem_of_getElem?' hp2)
  obtain ⟨hl1, hn1⟩ := pairLabel_canon p1 hmem1.1 hmem1.2 hsum1
  obtain ⟨hl2, hn2⟩ := pairLabel_canon p2 hmem2.1 hmem2.2 hsum2
  have heqn : getPairLowerValue p1 = getPairLowerValue p2 →
      getPairLabel p1 = getPairLabel p2 := by
    intro h
    rw [hl1, hl2, h]
  obtain ⟨hcomm, hfst⟩ := normalizeDominoValues_comm (getPairLabel p1) (getPairLabel p2)
    (getPairLowerValue p1) (getPairLowerValue p2) hn1 hn2 heqn
  have hdom' : canFormDomino (some p2) (some p1) = true := by
    unfold canFormDomino at hdom ⊢
    dsimp only at hdom ⊢
    have hperm : List.Perm [p2.1.suit, p2.2.suit, p1.1.suit, p1.2.suit]
        [p1.1.suit, p1.2.suit, p2.1.suit, p2.2.suit] := by
      have : [p2.1.suit, p2.2.suit] ++ [p1.1.suit, p1.2.suit]
          = [p2.1.suit, p2.2.suit, p1.1.suit, p1.2.suit] := rfl
      rw [← this]
      have : [p1.1.suit, p1.2.suit] ++ [p2.1.suit, p2.2.suit]
          = [p1.1.suit, p1.2.suit, p2.1.suit, p2.2.suit] := rfl
      rw [← this]
      exact List.perm_append_comm
    rw [hperm.dedup.length_eq]
    exact hdom
  refine ⟨(normalizeDominoValues (getPairLabel p1) (getPairLabel p2)).1,
          (normalizeDominoValues (getPairLabel p1) (getPairLabel p2)).2, ?_, ?_, ?_⟩
  · unfold createDominoFromPairs
    rw [if_neg hij]
    simp only [hp1, hp2]
    rw [if_neg (by simp [hdom])]
    simp only [List.getLast?_concat, Option.map_some']
  · unfold createDominoFromPairs
    rw [if_neg (Ne.symm hij)]
    simp only [hp1, hp2]
    rw [if_neg (by simp [hdom'])]
    simp only [List.getLast?_concat, Option.map_some']
    rw [hcomm]
  · exact hfst

/-- Witness for C2 at a concrete input: in the four-pair pool reached from
the witness deck, building a domino from pairs 0 and 1 in either order
yields `value1 = "A-K"`, `value2 = "5-9"`. -/
theorem spec_C2_domino_normalization_witness :
    ∃ v1 v2,
      ((createDominoFromPairs ws4 0 1 "d1").dominos.getLast?).map
          (fun d => (d.value1, d.value2)) = some (v1, v2)
      ∧ ((createDominoFromPairs ws4 1 0 "d2").dominos.getLast?).map
          (fun d => (d.value1, d.value2)) = some (v1, v2)
      ∧ v1 = (if getPairLowerValue (⟨"A", "♥", 1, true, "A♥"⟩, ⟨"K", "♣", 13, false, "K♣"⟩)
                ≤ getPairLowerValue (⟨"5", "♦", 5, true, "5♦"⟩, ⟨"9", "♠", 9, false, "9♠"⟩)
              then getPairLabel (⟨"A", "♥", 1, true, "A♥"⟩, ⟨"K", "♣", 13, false, "K♣"⟩)
              else getPairLabel (⟨"5", "♦", 5, true, "5♦"⟩, ⟨"9", "♠", 9, false, "9♠"⟩)) :=
  spec_C2_domino_normalization witnessDeck ws4 (by decide)
    (Reachable.pair 2 3 (Reachable.pair 0 1 (Reachable.pair 6 7
      (Reachable.pair 4 5 Reachable.init))))
    0 1
    (⟨"A", "♥", 1, true, "A♥"⟩, ⟨"K", "♣", 13, false, "K♣"⟩)
    (⟨"5", "♦", 5, true, "5♦"⟩, ⟨"9", "♠", 9, false, "9♠"⟩)
    "d1" "d2" (by decide) (by decide) (by decide) (by decide)

/-- Witness for C4 at a concrete input: the two-domino circular chain built
by the witness play has matching edges, and reversal preserves edge
matching. -/
theorem spec_C4_chain_edges_witness :
    (∀ c ∈ ws8.chains, List.Chain' dominoEdge c)
    ∧ ∀ c : DominoChain, List.Chain' dominoEdge c →
        List.Chain' dominoEdge (reverseChain c) :=
  spec_C4_chain_edges witnessDeck ws8
    (Reachable.add 1 none (Reachable.add 0 none (Reachable.dom 0 1 "d2"
      (Reachable.dom 0 1 "d1" (Reachable.pair 2 3 (Reachable.pair 0 1
        (Reachable.pair 6 7 (Reachable.pair 4 5 Reachable.init))))))))

/-! ## Claim C5: generic chain placement (corrected) -/

/-- Counterexample to C5 as stated: in `cexState` the chains list is
non-empty, domino 1 (`cexDominoB`, labels A-K | A-K) is available and is
accepted at the START of the existing chain `[cexDominoA]` (start label
A-K), but not at its end (5-9).  The claim requires `addDominoToChain` with
no target to connect it to that chain; the code instead creates a new
singleton chain, because its scan tests only chain ENDS. -/
theorem spec_C5_counterexample :
    cexState.chains = [[cexDominoA]]
    ∧ cexState.dominos[1]? = some cexDominoB
    ∧ cexDominoB.inChain = false
    ∧ canConnectToChainStart cexDominoB [cexDominoA] = true
    ∧ canConnectToChain cexDominoB [cexDominoA] = false
    ∧ (addDominoToChain cexState 1 none).chains
        = [[cexDominoA], [orientAsNew cexDominoB 1]] := by
  refine ⟨rfl, rfl, rfl, by decide, by decide, by decide⟩

/-- C5 (amended).  With no target chain, `addDominoToChain` scans chains in
list order testing only each chain's END label (`canConnectToChain`); it
appends the domino, oriented, at the end of the first chain whose end label
matches one of the domino's values, and creates a new singleton chain when
no chain's end matches — even when some chain's start label would accept
the domino. -/
theorem spec_C5_generic_placement (s : GameState) (idx : Nat) (domino : Domino)
    (hdomi : s.dominos[idx]? = some domino) (hin : domino.inChain = false)
    (hne : ∀ c ∈ s.chains, c ≠ []) :
    (s.chains.findIdx? (fun chain => canConnectToChain domino chain) = none →
      addDominoToChain s idx none = { s with
        dominos := markInChain s.dominos idx
        chains := s.chains ++ [[orientAsNew domino idx]]
        moveCount := s.moveCount + 1
        history := withHistory s })
    ∧ ∀ ci chain,
        s.chains.findIdx? (fun chain => canConnectToChain domino chain) = some ci →
        s.chains[ci]? = some chain →
        ∃ ends, getChainEndValues chain = some ends
          ∧ (domino.value1 = ends.2 ∨ domino.value2 = ends.2)
          ∧ addDominoToChain s idx none = { s with
              dominos := markInChain s.dominos idx
              chains := s.chains.set ci (chain ++
                [if domino.value1 == ends.2 then
                  { domino with
                    originalIndex := some idx
                    displayValue1 := some domino.value1
                    displayValue2 := some domino.value2 }
                 else
                  { domino with
                    originalIndex := some idx
                    displayValue1 := some domino.value2
                    displayValue2 := some domino.value1 }])
              moveCount := s.moveCount + 1
              history := withHistory s } := by
  constructor
  · intro hfind
    unfold addDominoToChain
    simp only [hdomi]
    rw [if_neg (by simp [hin])]
    rw [hfind]
  · intro ci chain hfind hchain
    have hcne : chain ≠ [] := hne chain (mem_of_getElem?' hchain)
    obtain ⟨ends, hends⟩ : ∃ e, getChainEndValues chain = some e := by
      cases chain with
      | nil => exact absurd rfl hcne
      | cons a t =>
        cases hgl : (a :: t).getLast? with
        | none => simp at hgl
        | some lst =>
          exact ⟨_, by unfold getChainEndValues; rw [List.head?_cons, hgl]⟩
    have hp : canConnectToChain domino chain = true := by
      have hiff := List.findIdx?_eq_some_iff_getElem.mp hfind
      obtain ⟨hlt, hsat, -⟩ := hiff
      have hgc : s.chains[ci] = chain := by
        rw [List.getElem?_eq_getElem hlt] at hchain
        exact Option.some_inj.mp hchain
      rw [← hgc]
      exact hsat
    have hcend : (domino.value1 == ends.2 || domino.value2 == ends.2) = true := by
      unfold canConnectToChain at hp
      rw [hends] at hp
      exact hp
    refine ⟨ends, hends, ?_, ?_⟩
    · rcases Bool.or_eq_true_iff.mp hcend with h | h
      · exact Or.inl (eq_of_beq h)
      · exact Or.inr (eq_of_beq h)
    · unfold addDominoToChain
      simp only [hdomi]
      rw [if_neg (by simp [hin])]
      rw [hfind]
      dsimp only
      rw [hchain]
      dsimp only
      rw [hends]
      dsimp only
      rw [if_neg (by simp [hcend])]
      simp only [hcend, if_true]

/-- Witness for the amended C5 at a concrete input: in `cexState` no chain
end accepts `cexDominoB`, so a new singleton chain is created. -/
theorem spec_C5_generic_placement_witness :
    addDominoToChain cexState 1 none = { cexState with
      dominos := markInChain cexState.dominos 1
      chains := cexState.chains ++ [[orientAsNew cexDominoB 1]]
      moveCount := cexState.moveCount + 1
      history := withHistory cexState } :=
  (spec_C5_generic_placement cexState 1 cexDominoB (by decide) (by decide)
    (by decide)).1 (by decide)

/-! ## Claim C7: chain joining -/

/-- C7.  `joinChains` returns the input unchanged when the indices are
equal, when either index has no chain, or when `canJoinChains` fails;
otherwise it removes both source chains (higher index first) and appends
one merged chain chosen by the four-case orientation rule (end/start:
concatenate; end/end: chain1 then reversed chain2; start/end: chain2 then
chain1; start/start: reversed chain2 then chain1), where `reverseChain`
reverses the element order and swaps each element's display values. -/
theorem spec_C7_joinChains (s : GameState) (i j : Nat) :
    (i = j → joinChains s i j = s)
    ∧ (s.chains[i]? = none → joinChains s i j = s)
    ∧ (s.chains[j]? = none → joinChains s i j = s)
    ∧ (∀ c1 c2, s.chains[i]? = some c1 → s.chains[j]? = some c2 →
        canJoinChains c1 c2 = false → joinChains s i j = s)
    ∧ (∀ c1 c2 e1 e2, i ≠ j → s.chains[i]? = some c1 → s.chains[j]? = some c2 →
        getChainEndValues c1 = some e1 → getChainEndValues c2 = some e2 →
        canJoinChains c1 c2 = true →
        joinChains s i j = { s with
          chains := ((s.chains.eraseIdx (max i j)).eraseIdx (min i j)) ++
            [if e1.2 = e2.1 then c1 ++ c2
             else if e1.2 = e2.2 then c1 ++ reverseChain c2
             else if e1.1 = e2.2 then c2 ++ c1
             else reverseChain c2 ++ c1]
          moveCount := s.moveCount + 1
          history := withHistory s })
    ∧ (∀ c : DominoChain, reverseChain c
        = c.reverse.map (fun d => { d with
            displayValue1 := d.displayValue2
            displayValue2 := d.displayValue1 })) := by
  refine ⟨?_, ?_, ?_, ?_, ?_, fun c => rfl⟩
  · intro hij
    unfold joinChains
    rw [if_pos hij]
  · intro hnone
    unfold joinChains
    by_cases hij : i = j
    · rw [if_pos hij]
    · rw [if_neg hij]
      simp only [hnone]
  · intro hnone
    unfold joinChains
    by_cases hij : i = j
    · rw [if_pos hij]
    · rw [if_neg hij]
      simp only [hnone]
      split
      · next h1 h2 => exact absurd h2 (by simp)
      · rfl
  · intro c1 c2 hc1 hc2 hjoin
    unfold joinChains
    by_cases hij : i = j
    · rw [if_pos hij]
    · rw [if_neg hij]
      simp only [hc1, hc2]
      rw [if_pos hjoin]
  · intro c1 c2 e1 e2 hij hc1 hc2 he1 he2 hjoin
    have hjoin' : (e1.2 == e2.1 || e1.2 == e2.2 || e1.1 == e2.1 || e1.1 == e2.2) = true := by
      unfold canJoinChains at hjoin
      rw [he1, he2] at hjoin
      exact hjoin
    have hjoined : joinedChain? c1 c2 e1 e2
        = some (if e1.2 = e2.1 then c1 ++ c2
                else if e1.2 = e2.2 then c1 ++ reverseChain c2
                else if e1.1 = e2.2 then c2 ++ c1
                else reverseChain c2 ++ c1) := by
      unfold joinedChain?
      by_cases h1 : e1.2 = e2.1
      · rw [if_pos h1, if_pos h1]
      · rw [if_neg h1, if_neg h1]
        by_cases h2 : e1.2 = e2.2
        · rw [if_pos h2, if_pos h2]
        · rw [if_neg h2, if_neg h2]
          by_cases h3 : e1.1 = e2.2
          · rw [if_pos h3, if_pos h3]
          · rw [if_neg h3, if_neg h3]
            have h4 : e1.1 = e2.1 := by
              rcases Bool.or_eq_true_iff.mp hjoin' with h | h
              · rcases Bool.or_eq_true_iff.mp h with h | h
                · rcases Bool.or_eq_true_iff.mp h with h | h
                  · exact absurd (eq_of_beq h) h1
                  · exact absurd (eq_of_beq h) h2
                · exact eq_of_beq h
              · exact absurd (eq_of_beq h) h3
            rw [if_pos h4]
    unfold joinChains
    rw [if_neg hij]
    simp only [hc1, hc2]
    rw [if_neg (by simp [hjoin])]
    rw [he1, he2]
    dsimp only
    rw [hjoined]

/-- Witness for C7 at a concrete input: joining the two one-domino chains
of `cexJoinState` (end 5-9 meets start 5-9) concatenates them. -/
theorem spec_C7_joinChains_witness :
    joinChains cexJoinState 0 1 = { cexJoinState with
      chains := ((cexJoinState.chains.eraseIdx (max 0 1)).eraseIdx (min 0 1)) ++
        [if ("A-K", "5-9").2 = ("5-9", "A-K").1 then [cexDominoA] ++ [cexDominoC]
         else if ("A-K", "5-9").2 = ("5-9", "A-K").2 then
           [cexDominoA] ++ reverseChain [cexDominoC]
         else if ("A-K", "5-9").1 = ("5-9", "A-K").2 then [cexDominoC] ++ [cexDominoA]
         else reverseChain [cexDominoC] ++ [cexDominoA]]
      moveCount := cexJoinState.moveCount + 1
      history := withHistory cexJoinState } := by
  have h := (spec_C7_joinChains cexJoinState 0 1).2.2.2.2.1 [cexDominoA] [cexDominoC]
    ("A-K", "5-9") ("5-9", "A-K") (by decide) (by decide) (by decide) (by decide)
    (by decide) (by decide)
  exact h

/-- Witness for C3 at a concrete input: evaluating the characterization on
the single two-domino chain list of the witness play. -/
theorem spec_C3_checkWin_witness :
    (checkWin ws8.chains = true ↔
      ∃ chain, ws8.chains = [chain] ∧ chain.length = 13 ∧ checkCircular chain = true)
    ∧ ∀ chain : DominoChain, checkCircular chain = true ↔
        2 ≤ chain.length ∧
          ∃ ends, getChainEndValues chain = some ends ∧ ends.1 = ends.2 :=
  spec_C3_checkWin ws8.chains

/-- Witness for the amended C8 at a concrete input: every non-undo
operation keeps `moveCount` non-decreasing from the canonical deal. -/
theorem spec_C8_moveCount_monotone_witness :
    (∀ i j, (createInitialState createDeck).moveCount ≤
      (moveCard (createInitialState createDeck) i j).moveCount)
    ∧ (∀ i j, (createInitialState createDeck).moveCount ≤
        (createPairFromTableau (createInitialState createDeck) i j).moveCount)
    ∧ (∀ i j newId, (createInitialState createDeck).moveCount ≤
        (createDominoFromPairs (createInitialState createDeck) i j newId).moveCount)
    ∧ (∀ i ci?, (createInitialState createDeck).moveCount ≤
        (addDominoToChain (createInitialState createDeck) i ci?).moveCount)
    ∧ (∀ i j, (createInitialState createDeck).moveCount ≤
        (joinChains (createInitialState createDeck) i j).moveCount)
    ∧ (∀ i, (createInitialState createDeck).moveCount ≤
        (removeLastFromChain (createInitialState createDeck) i).moveCount)
    ∧ (∀ ci?, (createInitialState createDeck).moveCount ≤
        (clearChain (createInitialState createDeck) ci?).moveCount)
    ∧ (∀ i j, (createInitialState createDeck).moveCount ≤
        (reorderPairs (createInitialState createDeck) i j).moveCount)
    ∧ (∀ i j, (createInitialState createDeck).moveCount ≤
        (reorderDominos (createInitialState createDeck) i j).moveCount)
    ∧ (∀ i j, (createInitialState createDeck).moveCount ≤
        (reorderChains (createInitialState createDeck) i j).moveCount) :=
  spec_C8_moveCount_monotone (createInitialState createDeck)

end Tiki
